import Mathlib

/-!
Shallow embedding of the NOTAM repository (amattheisen/notams) for
specification checking.

The embedding covers:
* the field validators and batch importer of src/lib_notam_yaml.py,
* the ordinal formatter add_number_suffix (including the CPython float
  division it performs),
* delete_notam of src/lib_notam_yaml.py,
* abbreviate_idents and days_from_timespan of src/retrieve_notams.py,
* get_location and compute_circle of src/plot_notams.py (over the real
  numbers, as the idealisation of binary64 arithmetic).

Modelling conventions:
* Python float values coming out of the validators are modelled as rational
  numbers; the validator arithmetic (integer sums, division by 60 and 3600,
  comparisons against 0, 60, 90, 180) is exact in this range, so the
  rational model is the intended idealisation.
* Python exceptions are modelled with Except PyErr; a function that can
  raise returns Except, a function that cannot returns a plain value.
* Python regular expression matching is modelled by hand for each of the
  anchored patterns used in the source.  Two documented CPython behaviours
  are preserved faithfully: the dollar anchor also matches just before one
  trailing newline at the end of the string, and the dot does not match a
  newline.  The digit class is modelled as the ASCII digits 0-9 (the claims
  under study only involve ASCII data).
-/

/-- Python exceptions raised by the modelled fragments of the code base. -/
inductive PyErr where
  | keyError (key : String)
  | valueError (msg : String)
  deriving Repr, DecidableEq

/-- Numeric value of an ASCII digit character. -/
def digitVal (c : Char) : ℕ := c.toNat - 48

/-- Value of a run of ASCII digits, most significant first, as produced by
the Python int constructor on a digit string. -/
def digitsToNat (l : List Char) : ℕ := l.foldl (fun acc c => 10 * acc + digitVal c) 0

/-- Python float(s) on the grammar fragment exercised by this code base:
an optional sign, then digits with an optional decimal point (at least one
digit overall).  Strings outside this fragment (scientific notation,
inf and nan, surrounding whitespace) do not occur in the repository and are
mapped to none, which models a raised ValueError. -/
def parseUnsignedFloat (l : List Char) : Option ℚ :=
  let ip := l.takeWhile Char.isDigit
  match l.dropWhile Char.isDigit with
  | [] => if ip.isEmpty then none else some (digitsToNat ip)
  | '.' :: frac =>
      if frac.all Char.isDigit && (!ip.isEmpty || !frac.isEmpty) then
        some ((digitsToNat ip : ℚ) + (digitsToNat frac : ℚ) / (10 ^ frac.length))
      else none
  | _ => none

/-- Python float on a string argument; none models a ValueError. -/
def pyFloatStr (s : String) : Option ℚ :=
  match s.data with
  | '+' :: rest => parseUnsignedFloat rest
  | '-' :: rest => (parseUnsignedFloat rest).map (fun q => -q)
  | l => parseUnsignedFloat l

/-- Python int(s) on the grammar fragment exercised by this code base:
optional sign then one or more digits. none models a ValueError. -/
def pyIntStr (s : String) : Option ℤ :=
  match s.data with
  | '+' :: rest => if !rest.isEmpty && rest.all Char.isDigit then some (digitsToNat rest) else none
  | '-' :: rest => if !rest.isEmpty && rest.all Char.isDigit then some (-(digitsToNat rest : ℤ)) else none
  | l => if !l.isEmpty && l.all Char.isDigit then some (digitsToNat l) else none

/-- The Python values that reach validate_range in this code base:
ints, floats and strings. -/
inductive PyVal where
  | int (n : ℤ)
  | float (q : ℚ)
  | str (s : String)
  deriving Repr, DecidableEq

/-- Python float(x) for an int, float or str argument.  A string that does
not parse as a float raises ValueError. -/
def pyFloat : PyVal → Except PyErr ℚ
  | .int n => .ok n
  | .float q => .ok q
  | .str s =>
      match pyFloatStr s with
      | some q => .ok q
      | none => .error (.valueError ("could not convert string to float: " ++ s))

/-- Python int(s) for a string argument, raising ValueError when the string
is not an integer literal. -/
def pyIntExc (s : String) : Except PyErr ℤ :=
  match pyIntStr s with
  | some n => .ok n
  | none => .error (.valueError ("invalid literal for int with base 10: " ++ s))

/-! ### Field validators of src/lib_notam_yaml.py -/

/-- MAX_LATITUDE constant of the source. -/
def MAX_LATITUDE : ℚ := 90

/-- MAX_LONGITUDE constant of the source. -/
def MAX_LONGITUDE : ℚ := 180

/-- MINUTES_IN_ONE_DEGREE constant of the source. -/
def MINUTES_IN_ONE_DEGREE : ℚ := 60

/-- SECONDS_IN_ONE_DEGREE constant of the source. -/
def SECONDS_IN_ONE_DEGREE : ℚ := 3600

/-- The dollar anchor of a CPython pattern: it matches at the end of the
string and also just before a single newline that ends the string. -/
def pyDollar (rest : List Char) : Bool := rest = [] || rest = ['\n']

/-- Matching of the anchored pattern IS_IDENT, that is one to twenty
arbitrary non-newline characters followed by the dollar anchor.  The dot of
CPython does not match a newline, and the quantifier backtracks, so a match
either consumes the whole string or leaves exactly one trailing newline. -/
def matchesIdent (l : List Char) : Bool :=
  (decide (1 ≤ l.length) && decide (l.length ≤ 20) && l.all (fun c => c ≠ '\n'))
  || (match l.getLast? with
      | some c =>
          c = '\n' && decide (1 ≤ l.dropLast.length) && decide (l.dropLast.length ≤ 20)
            && l.dropLast.all (fun c => c ≠ '\n')
      | none => false)

/-- validate_ident of src/lib_notam_yaml.py lines 195-203. -/
def validate_ident (ident : String) : Option String :=
  if matchesIdent ident.data then some ident else none

/-- Matching of the anchored pattern IS_LAT against a string: two digit
groups for degrees, minutes and seconds, one direction character N or S,
then the dollar anchor (so an optional single trailing newline).  Returns
the three digit groups and the direction on success, mirroring the named
groups of the match object. -/
def matchLat (s : String) : Option (String × String × String × Char) :=
  match s.data with
  | [a, b, c, d, e, f, g] =>
      if [a, b, c, d, e, f].all Char.isDigit && (g = 'N' || g = 'S') then
        some (⟨[a, b]⟩, ⟨[c, d]⟩, ⟨[e, f]⟩, g)
      else none
  | [a, b, c, d, e, f, g, h] =>
      if [a, b, c, d, e, f].all Char.isDigit && (g = 'N' || g = 'S') && h = '\n' then
        some (⟨[a, b]⟩, ⟨[c, d]⟩, ⟨[e, f]⟩, g)
      else none
  | _ => none

/-- Matching of the anchored pattern IS_LON against a string: a greedy two
or three digit degrees group, two digit groups for minutes and seconds, one
direction character E or W, then the dollar anchor.  The greedy degrees
group prefers three digits and backtracks to two. -/
def matchLon (s : String) : Option (String × String × String × Char) :=
  match s.data with
  | [a, b, c, d, e, f, g] =>
      if [a, b, c, d, e, f].all Char.isDigit && (g = 'E' || g = 'W') then
        some (⟨[a, b]⟩, ⟨[c, d]⟩, ⟨[e, f]⟩, g)
      else none
  | [a, b, c, d, e, f, g, h] =>
      if [a, b, c, d, e, f, g].all Char.isDigit && (h = 'E' || h = 'W') then
        some (⟨[a, b, c]⟩, ⟨[d, e]⟩, ⟨[f, g]⟩, h)
      else if [a, b, c, d, e, f].all Char.isDigit && (g = 'E' || g = 'W') && h = '\n' then
        some (⟨[a, b]⟩, ⟨[c, d]⟩, ⟨[e, f]⟩, g)
      else none
  | [a, b, c, d, e, f, g, h, i] =>
      if [a, b, c, d, e, f, g].all Char.isDigit && (h = 'E' || h = 'W') && i = '\n' then
        some (⟨[a, b, c]⟩, ⟨[d, e]⟩, ⟨[f, g]⟩, h)
      else none
  | _ => none

/-- validate_direction of src/lib_notam_yaml.py lines 282-290.  The
direction group is a single character. -/
def validate_direction (direction : Char) (valid_directions : List Char) : Option ℤ :=
  if direction ∉ valid_directions then none
  else if direction ∈ ['N', 'E'] then some 1 else some (-1)

/-- validate_range of src/lib_notam_yaml.py lines 293-306.  The three
arguments are cast to float before comparison, which raises ValueError for
a non-numeric string; the or of the source short-circuits, so the maximum
is only cast when the first comparison fails. -/
def validate_range (number min_val max_val : PyVal) : Except PyErr (Option PyVal) := do
  let n ← pyFloat number
  let lo ← pyFloat min_val
  if n < lo then
    return none
  else
    let hi ← pyFloat max_val
    if n > hi then return none else return (some number)

/-- validate_lat_or_lon of src/lib_notam_yaml.py lines 228-279, taking the
optional match groups, the valid directions and the degree bound. -/
def validate_lat_or_lon (m : Option (String × String × String × Char))
    (valid_directions : List Char) (max_degrees : ℚ) : Except PyErr (Option ℚ) :=
  match m with
  | none => .ok none
  | some (whole_degrees, mGroup, sGroup, dGroup) => do
      let minutes? ← validate_range (.str mGroup) (.int 0) (.int 60)
      match minutes? with
      | none => return none
      | some minutes =>
          let seconds? ← validate_range (.str sGroup) (.int 0) (.int 60)
          match seconds? with
          | none => return none
          | some seconds =>
              match validate_direction dGroup valid_directions with
              | none => return none
              | some sign => do
                  let dgN ← pyIntExc whole_degrees
                  let mQ ← pyFloat minutes
                  let sQ ← pyFloat seconds
                  let abs_degrees : ℚ :=
                    dgN + mQ / MINUTES_IN_ONE_DEGREE + sQ / SECONDS_IN_ONE_DEGREE
                  let abs? ← validate_range (.float abs_degrees) (.float 0) (.float max_degrees)
                  match abs? with
                  | none => return none
                  | some _ => return (some ((sign : ℚ) * abs_degrees))

/-- validate_lat of src/lib_notam_yaml.py lines 206-214. -/
def validate_lat (lat : String) : Except PyErr (Option ℚ) :=
  validate_lat_or_lon (matchLat lat) ['N', 'S'] MAX_LATITUDE

/-- validate_lon of src/lib_notam_yaml.py lines 217-225. -/
def validate_lon (lon : String) : Except PyErr (Option ℚ) :=
  validate_lat_or_lon (matchLon lon) ['E', 'W'] MAX_LONGITUDE

/-- validate_radius of src/lib_notam_yaml.py lines 309-320.  The anchored
pattern IS_RADIUS is one or more digits, an optional literal NM, then the
dollar anchor.  Backtracking cannot shorten the greedy digit run (the
following char of a shorter run would be a digit, which neither NM nor the
anchor accepts), so the digit group is the maximal digit run and the
remainder must be empty, a lone trailing newline, NM, or NM with a trailing
newline. -/
def validate_radius (r : String) : Option ℕ :=
  let l := r.data
  let ds := l.takeWhile Char.isDigit
  let rest := l.dropWhile Char.isDigit
  if ds.isEmpty then none
  else if rest = [] || rest = ['\n'] || rest = ['N', 'M'] || rest = ['N', 'M', '\n'] then
    some (digitsToNat ds)
  else none

/-- Python str.upper() on the ASCII data of this code base: uppercase each
character. -/
def pyUpper (s : String) : String := ⟨s.data.map Char.toUpper⟩

/-! ### add_number_suffix of src/lib_notam_yaml.py lines 323-337

The source computes "%d%s" % (n, "tsnrhtdd"[k::4]) with
k = (math.floor(n / 10) % 10 != 1) * (n % 10 < 4) * (n % 10).
The quotient n / 10 is CPython true division of two ints: the correctly
rounded binary64 value of the exact quotient.  We model that rounding
exactly over the naturals. -/

/-- Binary logarithm with explicit fuel (structural recursion so that the
kernel can evaluate it). -/
def log2Fuel : ℕ → ℕ → ℕ
  | 0, _ => 0
  | fuel + 1, n => if 2 ≤ n then log2Fuel fuel (n / 2) + 1 else 0

/-- Floor of the binary logarithm of a positive natural. -/
def floorLog2 (n : ℕ) : ℕ := log2Fuel n n

/-- Round the rational a / b (b positive) to the nearest integer, ties to
even: the rounding used for an IEEE binary64 mantissa. -/
def rne (a b : ℕ) : ℕ :=
  let q := a / b
  let r := a % b
  if 2 * r < b then q
  else if b < 2 * r then q + 1
  else if q % 2 = 0 then q else q + 1

/-- math.floor(n / 10) for a Python int n, where n / 10 is the correctly
rounded binary64 of the exact quotient.  With e the binary exponent of
n / 10 (the unique e with 2 ^ e below-or-equal n / 10 below 2 ^ (e + 1)),
the binary64 grid near n / 10 has spacing 2 ^ (e - 52); the value is the
nearest grid multiple, ties to even, and we take its floor.  (Binary64
overflow would need n beyond 10 * 2 ^ 1024 and is outside the modelled
range.) -/
def pyFloorDiv10 (n : ℕ) : ℕ :=
  if n = 0 then 0
  else
    let e : ℤ := (floorLog2 (16 * n / 10) : ℤ) - 4
    if e ≤ 52 then
      let p := (52 - e).toNat
      rne (n * 2 ^ p) 10 / 2 ^ p
    else
      let k := (e - 52).toNat
      rne n (10 * 2 ^ k) * 2 ^ k

/-- add_number_suffix of src/lib_notam_yaml.py lines 323-337 for a
non-negative int.  The slice "tsnrhtdd"[k::4] is "th", "st", "nd", "rd"
for k = 0, 1, 2, 3; the index expression can only produce 0..3 because the
factor (n % 10 < 4) zeroes every larger last digit. -/
def add_number_suffix (n : ℕ) : String :=
  let k := (if pyFloorDiv10 n % 10 ≠ 1 then 1 else 0) * (if n % 10 < 4 then 1 else 0) * (n % 10)
  let suf := match k with
    | 1 => "st"
    | 2 => "nd"
    | 3 => "rd"
    | _ => "th"
  toString n ++ suf

/-! ### import_notams of src/lib_notam_yaml.py lines 123-192

The YAML layer is modelled away: the importer takes the list of raw
records parsed from the file (an absent or empty file is the empty list,
handled by the early returns of the source).  A raw record is a dictionary
with the four optional string keys the code reads; a missing key makes the
subscript access raise KeyError, modelled by Except. -/

/-- A raw record of the YAML store: a dictionary in the source, with the
four keys the code reads modelled as optional fields. -/
structure RawNotam where
  ident? : Option String
  lat? : Option String
  lon? : Option String
  rad? : Option String
  deriving Repr, DecidableEq

/-- NOTAM_KEYS constant of the source. -/
def NOTAM_KEYS : List String := ["ident", "lat", "lon", "rad"]

/-- Python key-in-dictionary test for a raw record. -/
def hasKey (r : RawNotam) (k : String) : Bool :=
  if k = "ident" then r.ident?.isSome
  else if k = "lat" then r.lat?.isSome
  else if k = "lon" then r.lon?.isSome
  else if k = "rad" then r.rad?.isSome
  else false

/-- Python dictionary subscript for a raw record: raises KeyError when the
key is absent. -/
def getItem (r : RawNotam) (k : String) : Except PyErr String :=
  let v := if k = "ident" then r.ident?
    else if k = "lat" then r.lat?
    else if k = "lon" then r.lon?
    else if k = "rad" then r.rad?
    else none
  match v with
  | some s => .ok s
  | none => .error (.keyError k)

/-- MISSING_REQUIRED_KEY message template of the source. -/
def MISSING_REQUIRED_KEY_MSG (i_th key : String) : String :=
  "ERROR: " ++ i_th ++ " notam missing required key " ++ key ++ "."

/-- INVALID_IDENT message template of the source. -/
def INVALID_IDENT_MSG (i_th ident : String) : String :=
  "ERROR: " ++ i_th ++ " notam has invalid ident " ++ ident ++ "."

/-- INVALID_LATITUDE message template of the source. -/
def INVALID_LATITUDE_MSG (i_th latitude : String) : String :=
  "ERROR: " ++ i_th ++ " notam has invalid latitude " ++ latitude ++ "."

/-- INVALID_LONGITUDE message template of the source. -/
def INVALID_LONGITUDE_MSG (i_th longitude : String) : String :=
  "ERROR: " ++ i_th ++ " notam has invalid longitude " ++ longitude ++ "."

/-- INVALID_RADIUS message template of the source. -/
def INVALID_RADIUS_MSG (i_th radius : String) : String :=
  "ERROR: " ++ i_th ++ " notam has invalid radius " ++ radius ++ "."

/-- One iteration of the validation loop of import_notams: the key presence
check (which only records error messages), then the four field validations,
each of whose subscript accesses can raise KeyError.  Returns the
valid_notam flag and the error messages of this record. -/
def importStep (ii : ℕ) (notam : RawNotam) : Except PyErr (Bool × List String) := do
  let keyErrs := (NOTAM_KEYS.filter (fun k => !hasKey notam k)).map
    (fun k => MISSING_REQUIRED_KEY_MSG (add_number_suffix ii) k)
  let valid0 := keyErrs.isEmpty
  let ident ← getItem notam "ident"
  let identV := validate_ident ident
  let errs1 := match identV with
    | none => [INVALID_IDENT_MSG (add_number_suffix ii) ident]
    | some _ => []
  let lat ← getItem notam "lat"
  let latV ← validate_lat (pyUpper lat)
  let errs2 := match latV with
    | none => [INVALID_LATITUDE_MSG (add_number_suffix ii) lat]
    | some _ => []
  let lon ← getItem notam "lon"
  let lonV ← validate_lon (pyUpper lon)
  let errs3 := match lonV with
    | none => [INVALID_LONGITUDE_MSG (add_number_suffix ii) lon]
    | some _ => []
  let rad ← getItem notam "rad"
  let radV := validate_radius (pyUpper rad)
  let errs4 := match radV with
    | none => [INVALID_RADIUS_MSG (add_number_suffix ii) rad]
    | some _ => []
  return (valid0 && identV.isSome && latV.isSome && lonV.isSome && radV.isSome,
    keyErrs ++ errs1 ++ errs2 ++ errs3 ++ errs4)

/-- The enumerate loop of import_notams, carrying the running index. -/
def importGo (ii : ℕ) : List RawNotam → Except PyErr (List RawNotam × List String)
  | [] => .ok ([], [])
  | notam :: rest => do
      let (valid, errs) ← importStep ii notam
      let (acc, errsRest) ← importGo (ii + 1) rest
      return ((if valid then notam :: acc else acc), errs ++ errsRest)

/-- import_notams of src/lib_notam_yaml.py lines 123-192, from the parsed
raw record list to the accepted record list and the error messages the
source prints.  The accepted records are the raw records themselves (the
source appends notam, not the validated values). -/
def import_notams (raws : List RawNotam) : Except PyErr (List RawNotam × List String) :=
  importGo 0 raws

/-- A raw record on which every check of importStep passes: all four keys
present and all four field validators successful. -/
def acceptedRecord (r : RawNotam) : Bool :=
  r.ident?.isSome && r.lat?.isSome && r.lon?.isSome && r.rad?.isSome &&
  (match r.ident? with
    | some s => (validate_ident s).isSome
    | none => false) &&
  (match r.lat? with
    | some s => match validate_lat (pyUpper s) with
      | .ok (some _) => true
      | _ => false
    | none => false) &&
  (match r.lon? with
    | some s => match validate_lon (pyUpper s) with
      | .ok (some _) => true
      | _ => false
    | none => false) &&
  (match r.rad? with
    | some s => (validate_radius (pyUpper s)).isSome
    | none => false)

/-! ### delete_notam of src/lib_notam_yaml.py lines 63-80

The YAML file is modelled as the list of raw records it holds.  The
function re-imports the store (validating it), searches for the first
record equal to the four arguments, and on success writes the imported
list without that record; export_notams itself always returns True in the
modelled fragment, so the result is the success flag together with the
file state after the call. -/

/-- The search loop of delete_notam: Python compares the four fields with
short-circuit and, each comparison being a dictionary subscript, a missing
key raises KeyError. -/
def findMatchGo (ident lat lon rad : String) (ii : ℕ) :
    List RawNotam → Except PyErr (Option ℕ)
  | [] => .ok none
  | notam :: rest => do
      let i ← getItem notam "ident"
      if i = ident then
        let la ← getItem notam "lat"
        if la = lat then
          let lo ← getItem notam "lon"
          if lo = lon then
            let ra ← getItem notam "rad"
            if ra = rad then return (some ii)
            else findMatchGo ident lat lon rad (ii + 1) rest
          else findMatchGo ident lat lon rad (ii + 1) rest
        else findMatchGo ident lat lon rad (ii + 1) rest
      else findMatchGo ident lat lon rad (ii + 1) rest

/-- delete_notam of src/lib_notam_yaml.py lines 63-80: returns the success
flag and the file state after the call. -/
def delete_notam (stored : List RawNotam) (ident lat lon rad : String) :
    Except PyErr (Bool × List RawNotam) := do
  let (notam_list, _errs) ← import_notams stored
  let idx? ← findMatchGo ident lat lon rad 0 notam_list
  match idx? with
  | some ii => return (true, notam_list.eraseIdx ii)
  | none => return (false, stored)

/-! ### abbreviate_idents of src/retrieve_notams.py lines 211-257 -/

/-- The grouping of itertools.groupby: consecutive elements with equal key
form one group.  Auxiliary loop carrying the current group (reversed) and
its key. -/
def groupbyAux {α : Type} (f : α → ℤ) (curKey : ℤ) (cur : List α) :
    List α → List (List α)
  | [] => [cur.reverse]
  | x :: xs =>
      if f x = curKey then groupbyAux f curKey (x :: cur) xs
      else cur.reverse :: groupbyAux f (f x) [x] xs

/-- itertools.groupby with a key function: splits a list into maximal runs
of consecutive elements sharing the same key. -/
def groupbyKey {α : Type} (f : α → ℤ) : List α → List (List α)
  | [] => []
  | x :: xs => groupbyAux f (f x) [x] xs

/-- Python enumerate starting at n, over a list of integers. -/
def enumFrom (n : ℕ) : List ℤ → List (ℕ × ℤ)
  | [] => []
  | x :: xs => (n, x) :: enumFrom (n + 1) xs

/-- Python split on the slash character (structural recursion over the
character list, the behaviour of str.split with a one-character
separator). -/
def splitSlash : List Char → List (List Char)
  | [] => [[]]
  | c :: rest =>
      let r := splitSlash rest
      if c = '/' then [] :: r
      else
        match r with
        | [] => [[c]]
        | g :: gs => (c :: g) :: gs

/-- Python ident.split of the source, over strings. -/
def pySplitSlash (s : String) : List String := (splitSlash s.data).map (fun l => ⟨l⟩)

/-- abbreviate_idents of src/retrieve_notams.py lines 211-257.  An empty
input returns None (modelled as Option).  Each ident is split on the slash
and the parts converted with int (ValueError propagates); the starred zip
truncates the rows to the shortest length and unpacking into the two names
prefixes and suffixes requires exactly two columns; mixed first components
raise ValueError; the suffix runs are compressed with groupby keyed by
index minus suffix and joined with commas. -/
def abbreviate_idents (idents : List String) : Except PyErr (Option String) :=
  if idents.isEmpty then .ok none
  else do
    let split_idents ← idents.mapM (fun ident => (pySplitSlash ident).mapM pyIntExc)
    match split_idents with
    | [] => return none
    | r0 :: rrest =>
        let minLen := rrest.foldl (fun m row => min m row.length) r0.length
        if minLen ≠ 2 then
          .error (.valueError "not enough values to unpack")
        else
          let pfxs := (r0 :: rrest).map (fun row => row.headD 0)
          let sfxs := (r0 :: rrest).map (fun row => row.getD 1 0)
          let p0 := pfxs.headD 0
          if pfxs.any (fun p => p ≠ p0) then
            .error (.valueError
              "ERROR: Found multiple unique prefixes in idents.  All prefixes must be identical.")
          else
            let groups := groupbyKey (fun x => (x.1 : ℤ) - x.2) (enumFrom 0 sfxs)
            let groupStrs := groups.map (fun g =>
              let vals := g.map Prod.snd
              let a := vals.headD 0
              let b := vals.getLastD 0
              if a = b then toString a else toString a ++ "-" ++ toString b)
            let suffixes_str :=
              groupStrs.foldl (fun acc gs => if acc = "" then gs else acc ++ "," ++ gs) ""
            return some (toString p0 ++ "/" ++ suffixes_str)

/-! ### days_from_timespan of src/retrieve_notams.py lines 191-208

The datetime values of the source are modelled as minute counts: a
datetime is the number of minutes since the proleptic Gregorian
0000-03-01 00:00.  Conversion between calendar dates and day numbers uses
the standard civil calendar algorithms (era of 400 years, 146097 days). -/

/-- Gregorian leap year test. -/
def isLeapYear (y : ℕ) : Bool := y % 4 = 0 && (y % 100 ≠ 0 || y % 400 = 0)

/-- Number of days of a month (1..12) of a Gregorian year. -/
def daysInMonth (y m : ℕ) : ℕ :=
  if m = 2 then (if isLeapYear y then 29 else 28)
  else if m = 4 || m = 6 || m = 9 || m = 11 then 30
  else 31

/-- Day number (days since 0000-03-01) of a Gregorian calendar date. -/
def daysFromCivil (y m d : ℕ) : ℕ :=
  let y2 := if m ≤ 2 then y - 1 else y
  let era := y2 / 400
  let yoe := y2 % 400
  let mp := (m + 9) % 12
  let doy := (153 * mp + 2) / 5 + d - 1
  let doe := yoe * 365 + yoe / 4 - yoe / 100 + doy
  era * 146097 + doe

/-- Gregorian calendar date (year, month, day) of a day number. -/
def civilFromDays (z : ℕ) : ℕ × ℕ × ℕ :=
  let era := z / 146097
  let doe := z % 146097
  let yoe := (doe - doe / 1460 + doe / 36524 - doe / 146096) / 365
  let y := yoe + era * 400
  let doy := doe - (365 * yoe + yoe / 4 - yoe / 100)
  let mp := (5 * doy + 2) / 153
  let d := doy - (153 * mp + 2) / 5 + 1
  let m := if mp < 10 then mp + 3 else mp - 9
  (if m ≤ 2 then y + 1 else y, m, d)

/-- Two-digit zero padding of date components. -/
def pad2 (n : ℕ) : String := if n < 10 then "0" ++ toString n else toString n

/-- Four-digit zero padding of years. -/
def pad4 (n : ℕ) : String :=
  if n < 10 then "000" ++ toString n
  else if n < 100 then "00" ++ toString n
  else if n < 1000 then "0" ++ toString n
  else toString n

/-- date.isoformat of the day numbered z. -/
def isoOfDay (z : ℕ) : String :=
  let c := civilFromDays z
  pad4 c.1 ++ "-" ++ pad2 c.2.1 ++ "-" ++ pad2 c.2.2

/-- datetime.strptime with format string "%y%m%d%H%M", returning the
minute count of the parsed datetime: ten digits, two-digit year mapped to
2000-2068 or 1969-1999, and the month, day, hour and minute fields
validated (strptime raises ValueError otherwise, modelled as none). -/
def strptimeYYMMDDHHMM (l : List Char) : Option ℕ :=
  match l with
  | [y1, y2, mo1, mo2, d1, d2, h1, h2, mi1, mi2] =>
      if [y1, y2, mo1, mo2, d1, d2, h1, h2, mi1, mi2].all Char.isDigit then
        let yy := 10 * digitVal y1 + digitVal y2
        let y := if yy ≤ 68 then 2000 + yy else 1900 + yy
        let mo := 10 * digitVal mo1 + digitVal mo2
        let d := 10 * digitVal d1 + digitVal d2
        let h := 10 * digitVal h1 + digitVal h2
        let mi := 10 * digitVal mi1 + digitVal mi2
        if 1 ≤ mo && mo ≤ 12 && 1 ≤ d && d ≤ daysInMonth y mo && h ≤ 23 && mi ≤ 59 then
          some (daysFromCivil y mo d * 1440 + h * 60 + mi)
        else none
      else none
  | _ => none

/-- Matching of TIMESPAN_SUBSTRING_RE with re.match: ten digits, a hyphen,
ten digits, anchored at the start only (re.match ignores anything after the
matched span).  Returns the start and stop groups. -/
def matchTimespan (s : String) : Option (List Char × List Char) :=
  let l := s.data
  let a := l.take 10
  match l.drop 10 with
  | '-' :: r2 =>
      let b := r2.take 10
      if a.length = 10 && a.all Char.isDigit && b.length = 10 && b.all Char.isDigit then
        some (a, b)
      else none
  | _ => none

/-- The while loop of days_from_timespan with explicit fuel (structural
recursion so that the kernel can evaluate it): starting from day number d,
collect every day whose midnight is before the stop minute. -/
def walkDaysFuel : ℕ → ℕ → ℕ → List ℕ
  | 0, _, _ => []
  | fuel + 1, d, stop => if d * 1440 < stop then d :: walkDaysFuel fuel (d + 1) stop else []

/-- The while loop of days_from_timespan: a fuel of stop minutes is enough,
since each iteration advances one whole day. -/
def walkDays (d stop : ℕ) : List ℕ := walkDaysFuel stop d stop

/-- days_from_timespan of src/retrieve_notams.py lines 191-208: match the
timespan pattern (ValueError on failure), parse both ten-digit groups with
strptime, floor the start to its day, then walk one day at a time while
before the stop instant, collecting ISO formatted dates. -/
def days_from_timespan (timespan : String) : Except PyErr (List String) :=
  match matchTimespan timespan with
  | none => .error (.valueError ("ERROR: Timespan received with bad format: " ++ timespan))
  | some (a, b) =>
      match strptimeYYMMDDHHMM a, strptimeYYMMDDHHMM b with
      | some startMin, some stopMin => .ok ((walkDays (startMin / 1440) stopMin).map isoOfDay)
      | _, _ => .error (.valueError "time data does not match format yymmddHHMM")

/-! ### compute_circle and get_location of src/plot_notams.py lines 395-440

The binary64 trigonometry of the source is embedded over the real numbers,
the standard idealisation of floating point: every arithmetic operation is
exact and the math functions are the exact real functions.  Claims about
tolerance windows of concrete binaries are outside this model; equalities
proved here are exact real equalities. -/

/-- The Earth radius constant of get_location, in nautical miles. -/
noncomputable def R_NM : ℝ := 3440.07

/-- math.atan2 over the reals: the angle in (-pi, pi] of the point (x, y),
with atan2 0 0 = 0 as in the C library. -/
noncomputable def atan2 (y x : ℝ) : ℝ :=
  if 0 < x then Real.arctan (y / x)
  else if x < 0 then
    (if 0 ≤ y then Real.arctan (y / x) + Real.pi else Real.arctan (y / x) - Real.pi)
  else if 0 < y then Real.pi / 2
  else if y < 0 then -(Real.pi / 2)
  else 0

/-- get_location of src/plot_notams.py lines 414-440: destination point at
the given bearing (degrees) and distance (nautical miles) from a center
given in decimal degrees; returns (lat, lon) in decimal degrees. -/
noncomputable def get_location (lat1 lon1 bearing distance_nautical_miles : ℝ) : ℝ × ℝ :=
  let lat1r := lat1 * Real.pi / 180
  let lon1r := lon1 * Real.pi / 180
  let dR := distance_nautical_miles / R_NM
  let br := bearing / 90 * Real.pi / 2
  let lat2 := Real.arcsin
    (Real.sin lat1r * Real.cos dR + Real.cos lat1r * Real.sin dR * Real.cos br)
  let lon2 := lon1r + atan2 (Real.sin br * Real.sin dR * Real.cos lat1r)
    (Real.cos dR - Real.sin lat1r * Real.sin lat2)
  (180 * lat2 / Real.pi, 180 * lon2 / Real.pi)

/-- compute_circle of src/plot_notams.py lines 395-411: the latitude list
and longitude list of the 360 boundary points, one per integer bearing. -/
noncomputable def compute_circle (lat lon radius_nautical_miles : ℝ) : List ℝ × List ℝ :=
  ((List.range 360).map (fun (bearing : ℕ) => (get_location lat lon (bearing : ℝ) radius_nautical_miles).1),
   (List.range 360).map (fun (bearing : ℕ) => (get_location lat lon (bearing : ℝ) radius_nautical_miles).2))

/-- Modelled from the spec: the round-trip check of the testable property
for compute_circle, the great-circle distance from the first point to the
second point (decimal degrees) on the sphere of radius R_NM, via the
spherical law of cosines.  The source has no distance function; this is
the specification yardstick the circle points are measured against. -/
noncomputable def gc_distance (lat1 lon1 lat2 lon2 : ℝ) : ℝ :=
  R_NM * Real.arccos
    (Real.sin (lat1 * Real.pi / 180) * Real.sin (lat2 * Real.pi / 180) +
      Real.cos (lat1 * Real.pi / 180) * Real.cos (lat2 * Real.pi / 180) *
        Real.cos ((lon2 - lon1) * Real.pi / 180))

/-! ### Specification-side definitions

These definitions follow the words of the claims under study; the theorems
compare them with the embedded source functions. -/

/-- The value computation the claims describe for a latitude token with
digit characters a b c d e f (degrees, minutes, seconds) and direction g:
minutes and seconds must be in the interval from 0 to 60, the combined
unsigned value in the interval from 0 to 90, and the result is the signed
value, positive for N and negative for S. -/
def specLatCore (a b c d e f g : Char) : Option ℚ :=
  if [a, b, c, d, e, f].all Char.isDigit && (g = 'N' || g = 'S') then
    let mm : ℚ := ((10 * digitVal c + digitVal d : ℕ) : ℚ)
    let ss : ℚ := ((10 * digitVal e + digitVal f : ℕ) : ℚ)
    let v : ℚ := ((10 * digitVal a + digitVal b : ℕ) : ℚ) + mm / 60 + ss / 3600
    if 0 ≤ mm ∧ mm ≤ 60 ∧ 0 ≤ ss ∧ ss ≤ 60 ∧ 0 ≤ v ∧ v ≤ 90 then
      some ((if g = 'N' then 1 else -1) * v)
    else none
  else none

/-- The latitude validator exactly as the claim words it: a defined result
exactly for strings of the shape DDMMSS followed by N or S (and nothing
else) with the component conditions of specLatCore. -/
def specLatClaim (s : String) : Option ℚ :=
  match s.data with
  | [a, b, c, d, e, f, g] => specLatCore a b c d e f g
  | _ => none

/-- The latitude validator as amended: the shape DDMMSS followed by N or S
may additionally be followed by one trailing newline (the CPython dollar
anchor semantics). -/
def specLatAmended (s : String) : Option ℚ :=
  match s.data with
  | [a, b, c, d, e, f, g] => specLatCore a b c d e f g
  | [a, b, c, d, e, f, g, h] => if h = '\n' then specLatCore a b c d e f g else none
  | _ => none

/-- The radius grammar exactly as the claim words it: the string is one or
more decimal digits, optionally followed by the literal suffix NM, and the
value is the integer value of the digit run. -/
def radiusClaimGrammar (s : String) (n : ℕ) : Prop :=
  ∃ ds rest, s.data = ds ++ rest ∧ ds ≠ [] ∧ (∀ c ∈ ds, c.isDigit) ∧
    (rest = [] ∨ rest = ['N', 'M']) ∧ n = digitsToNat ds

/-- The radius grammar as amended: after the digit run and the optional NM
suffix, one trailing newline is also accepted (the CPython dollar anchor
semantics). -/
def radiusCodeGrammar (s : String) (n : ℕ) : Prop :=
  ∃ ds rest, s.data = ds ++ rest ∧ ds ≠ [] ∧ (∀ c ∈ ds, c.isDigit) ∧
    (rest = [] ∨ rest = ['N', 'M'] ∨ rest = ['\n'] ∨ rest = ['N', 'M', '\n']) ∧
    n = digitsToNat ds

/-- The English ordinal formatter as the claim words it: th for a number
whose last two digits are 11, 12 or 13, otherwise st, nd, rd for last
digit 1, 2, 3 and th for the rest. -/
def specOrdinal (n : ℕ) : String :=
  toString n ++
    (if n % 100 = 11 ∨ n % 100 = 12 ∨ n % 100 = 13 then "th"
     else if n % 10 = 1 then "st"
     else if n % 10 = 2 then "nd"
     else if n % 10 = 3 then "rd"
     else "th")

/-- Maximal runs of consecutive integers (each element one more than its
predecessor), the run structure the abbreviation claim describes.
Auxiliary loop carrying the previous element and the current run
reversed. -/
def consRunsAux (prev : ℤ) (cur : List ℤ) : List ℤ → List (List ℤ)
  | [] => [cur.reverse]
  | x :: xs =>
      if x = prev + 1 then consRunsAux x (x :: cur) xs
      else cur.reverse :: consRunsAux x [x] xs

/-- Maximal runs of consecutive integers of a list. -/
def consRuns : List ℤ → List (List ℤ)
  | [] => []
  | x :: xs => consRunsAux x [x] xs

/-- Range string of one run: a single number, or first-last. -/
def runStr (g : List ℤ) : String :=
  if g.headD 0 = g.getLastD 0 then toString (g.headD 0)
  else toString (g.headD 0) ++ "-" ++ toString (g.getLastD 0)

/-- Comma-joined list of strings. -/
def commaJoin : List String → String
  | [] => ""
  | [x] => x
  | x :: xs => x ++ "," ++ commaJoin xs

/-- The abbreviation result the claim describes: the shared numeric part
before the slash, then the runs of consecutive suffixes compressed to
range strings and joined by commas. -/
def specAbbrev (p : ℤ) (sfxs : List ℤ) : String :=
  toString p ++ "/" ++ commaJoin ((consRuns sfxs).map runStr)

/-- Parse of an identifier of the numeric form before-slash-after used to
state the abbreviation claim. -/
def parseIdentPair (s : String) : Option (ℤ × ℤ) :=
  match pySplitSlash s with
  | [a, b] =>
      match pyIntStr a, pyIntStr b with
      | some x, some y => some (x, y)
      | _, _ => none
  | _ => none

/-- Parse of a list of identifiers of the numeric slash form. -/
def parseIdents (l : List String) : Option (List (ℤ × ℤ)) := l.mapM parseIdentPair

/-- A calendar day (as a day number) overlaps the half-open minute span
from start to stop by at least one minute. -/
def dayOverlaps (startMin stopMin z : ℕ) : Prop :=
  max startMin (z * 1440) < min stopMin ((z + 1) * 1440)

/-- Decidable equality of Except results, used to evaluate the embedded
functions on concrete inputs. -/
instance instDecEqExcept {ε α : Type} [DecidableEq ε] [DecidableEq α] :
    DecidableEq (Except ε α) := fun x y =>
  match x, y with
  | .ok a, .ok b => if h : a = b then isTrue (by rw [h]) else isFalse (by simp [h])
  | .error e, .error f => if h : e = f then isTrue (by rw [h]) else isFalse (by simp [h])
  | .ok _, .error _ => isFalse (by simp)
  | .error _, .ok _ => isFalse (by simp)

attribute [local semireducible] Rat.add Rat.mul Rat.inv Rat.sub

/-- A stored record matches the four deletion arguments on all four
fields. -/
def matchesArgs (ident lat lon rad : String) (r : RawNotam) : Bool :=
  r.ident? = some ident && r.lat? = some lat && r.lon? = some lon && r.rad? = some rad

/-- Index of the first stored record matching the four deletion
arguments. -/
def firstMatchIdx (stored : List RawNotam) (ident lat lon rad : String) : Option ℕ :=
  stored.findIdx? (matchesArgs ident lat lon rad)

/-! ## Theorems -/

/-- C1: the batch validator is claimed never to raise on malformed input,
with a record lacking the rad key producing one missing-key diagnostic
while the other records of the batch are still processed.  The code
violates this: after recording the missing-key message for the second
record (index 1), it still evaluates the subscript access for rad, so the
call raises KeyError instead of returning the accepted records and the
diagnostic.  This theorem evaluates the embedded importer at that failing
batch. -/
theorem claim_C1_import_raises_KeyError_on_missing_rad :
    import_notams
      [⟨some "10/133", some "393835N", some "1174702W", some "400NM"⟩,
       ⟨some "10/134", some "393835N", some "1174702W", none⟩] =
      .error (.keyError "rad") := by decide

/-- C9: the ordinal formatter agrees with the English last-two-digits rule
on the documented examples, but the ten-to-nineteen test is computed with
binary64 float division (math.floor(n / 10)), which is off by one for
n = 10 ^ 17 + 111: the correctly rounded binary64 of n / 10 is
10000000000000012, whose last digit 2 defeats the 11-12-13 test, so the
code produces the suffix st where the stated rule produces th. -/
theorem claim_C9_ordinal_examples_and_float_divergence :
    add_number_suffix 1 = "1st" ∧ add_number_suffix 11 = "11th" ∧
    add_number_suffix 21 = "21st" ∧ add_number_suffix 112 = "112th" ∧
    add_number_suffix 100000000000000111 = "100000000000000111st" ∧
    specOrdinal 100000000000000111 = "100000000000000111th" :=
  ⟨by decide, by decide, by decide, by decide, by decide, by decide⟩

lemma okBind {ε α β : Type} (a : α) (f : α → Except ε β) :
    (Except.ok a : Except ε α) >>= f = f a := rfl

lemma errBind {ε α β : Type} (e : ε) (f : α → Except ε β) :
    (Except.error e : Except ε α) >>= f = Except.error e := rfl

lemma pureExcept {ε α : Type} (a : α) : (pure a : Except ε α) = Except.ok a := rfl

lemma validate_range_eval (number lo hi : PyVal) (qn ql qh : ℚ)
    (h1 : pyFloat number = .ok qn) (h2 : pyFloat lo = .ok ql) (h3 : pyFloat hi = .ok qh) :
    validate_range number lo hi =
      .ok (if qn < ql then none else if qh < qn then none else some number) := by
  unfold validate_range
  rw [h1, okBind, h2, okBind]
  split_ifs with hlt hgt
  · rfl
  · rw [h3, okBind]
    simp only [gt_iff_lt, hgt, if_true, pureExcept]
  · rw [h3, okBind]
    simp only [gt_iff_lt, hgt, if_false, pureExcept]

lemma all_takeWhile_dropWhile {p : Char → Bool} :
    ∀ l : List Char, l.all p = true → l.takeWhile p = l ∧ l.dropWhile p = [] := by
  intro l h
  induction l with
  | nil => simp
  | cons c rest ih =>
      simp only [List.all_cons, Bool.and_eq_true] at h
      simp [List.takeWhile, List.dropWhile, h.1, ih h.2]

lemma parseUnsignedFloat_digits (l : List Char) (h0 : l ≠ []) (h : l.all Char.isDigit = true) :
    parseUnsignedFloat l = some ((digitsToNat l : ℕ) : ℚ) := by
  obtain ⟨ht, hd⟩ := all_takeWhile_dropWhile l h
  unfold parseUnsignedFloat
  rw [hd, ht]
  simp [List.isEmpty_iff, h0]

lemma pyFloatStr_digits (l : List Char) (h0 : l ≠ []) (h : l.all Char.isDigit = true) :
    pyFloatStr ⟨l⟩ = some ((digitsToNat l : ℕ) : ℚ) := by
  obtain ⟨c, rest, rfl⟩ : ∃ c rest, l = c :: rest := by
    cases l with
    | nil => exact absurd rfl h0
    | cons c rest => exact ⟨c, rest, rfl⟩
  have hc : c.isDigit = true := by
    simp only [List.all_cons, Bool.and_eq_true] at h
    exact h.1
  have hcp : c ≠ '+' := by rintro rfl; exact absurd hc (by decide)
  have hcm : c ≠ '-' := by rintro rfl; exact absurd hc (by decide)
  have hgoal : pyFloatStr ⟨c :: rest⟩ = parseUnsignedFloat (c :: rest) := by
    unfold pyFloatStr
    split
    · next rest' heq =>
        exfalso
        have h2 : c :: rest = '+' :: rest' := heq
        injection h2 with h3 _
        exact hcp h3
    · next rest' heq =>
        exfalso
        have h2 : c :: rest = '-' :: rest' := heq
        injection h2 with h3 _
        exact hcm h3
    · rfl
  rw [hgoal]
  exact parseUnsignedFloat_digits _ h0 h

lemma pyIntStr_digits (l : List Char) (h0 : l ≠ []) (h : l.all Char.isDigit = true) :
    pyIntStr ⟨l⟩ = some ((digitsToNat l : ℕ) : ℤ) := by
  obtain ⟨c, rest, rfl⟩ : ∃ c rest, l = c :: rest := by
    cases l with
    | nil => exact absurd rfl h0
    | cons c rest => exact ⟨c, rest, rfl⟩
  have hc : c.isDigit = true := by
    simp only [List.all_cons, Bool.and_eq_true] at h
    exact h.1
  have hcp : c ≠ '+' := by rintro rfl; exact absurd hc (by decide)
  have hcm : c ≠ '-' := by rintro rfl; exact absurd hc (by decide)
  unfold pyIntStr
  split
  · next rest' heq =>
      exfalso
      have h2 : c :: rest = '+' :: rest' := heq
      injection h2 with h3 _
      exact hcp h3
  · next rest' heq =>
      exfalso
      have h2 : c :: rest = '-' :: rest' := heq
      injection h2 with h3 _
      exact hcm h3
  · simp [List.isEmpty_iff, h0, h]

lemma pyFloat_strDigits (l : List Char) (h0 : l ≠ []) (h : l.all Char.isDigit = true) :
    pyFloat (.str ⟨l⟩) = .ok ((digitsToNat l : ℕ) : ℚ) := by
  simp only [pyFloat]
  rw [pyFloatStr_digits l h0 h]

lemma pyIntExc_digits (l : List Char) (h0 : l ≠ []) (h : l.all Char.isDigit = true) :
    pyIntExc ⟨l⟩ = .ok ((digitsToNat l : ℕ) : ℤ) := by
  unfold pyIntExc
  rw [pyIntStr_digits l h0 h]

lemma validate_lat_or_lon_eval (dgs : List Char) (c d e f dir : Char) (dirs : List Char)
    (maxd : ℚ) (h0 : dgs ≠ []) (hdg : dgs.all Char.isDigit = true)
    (hc : c.isDigit = true) (hd : d.isDigit = true)
    (he : e.isDigit = true) (hf : f.isDigit = true) :
    validate_lat_or_lon (some (⟨dgs⟩, ⟨[c, d]⟩, ⟨[e, f]⟩, dir)) dirs maxd =
      .ok (
        if (60 : ℚ) < ((digitsToNat [c, d] : ℕ) : ℚ) then none
        else if (60 : ℚ) < ((digitsToNat [e, f] : ℕ) : ℚ) then none
        else
          match validate_direction dir dirs with
          | none => none
          | some sign =>
              if maxd < ((digitsToNat dgs : ℕ) : ℚ) + ((digitsToNat [c, d] : ℕ) : ℚ) / 60 +
                  ((digitsToNat [e, f] : ℕ) : ℚ) / 3600 then none
              else some ((sign : ℚ) *
                (((digitsToNat dgs : ℕ) : ℚ) + ((digitsToNat [c, d] : ℕ) : ℚ) / 60 +
                  ((digitsToNat [e, f] : ℕ) : ℚ) / 3600))) := by
  have hcd : ([c, d] : List Char).all Char.isDigit = true := by simp [hc, hd]
  have hef : ([e, f] : List Char).all Char.isDigit = true := by simp [he, hf]
  have hfm := pyFloat_strDigits [c, d] (by simp) hcd
  have hfs := pyFloat_strDigits [e, f] (by simp) hef
  have hint : pyFloat (.int 0) = .ok ((0 : ℚ)) := by unfold pyFloat; norm_num
  have hint60 : pyFloat (.int 60) = .ok ((60 : ℚ)) := by unfold pyFloat; norm_num
  simp only [validate_lat_or_lon]
  rw [validate_range_eval _ _ _ _ _ _ hfm hint hint60, okBind]
  have hnnm : ¬ (((digitsToNat [c, d] : ℕ) : ℚ) < 0) := not_lt.mpr (by positivity)
  rw [if_neg hnnm]
  by_cases hm : (60 : ℚ) < ((digitsToNat [c, d] : ℕ) : ℚ)
  · rw [if_pos hm, if_pos hm]
    rfl
  · rw [if_neg hm, if_neg hm]
    dsimp only
    rw [validate_range_eval _ _ _ _ _ _ hfs hint hint60, okBind]
    have hnns : ¬ (((digitsToNat [e, f] : ℕ) : ℚ) < 0) := not_lt.mpr (by positivity)
    rw [if_neg hnns]
    by_cases hs : (60 : ℚ) < ((digitsToNat [e, f] : ℕ) : ℚ)
    · rw [if_pos hs, if_pos hs]
      rfl
    · rw [if_neg hs, if_neg hs]
      dsimp only
      cases hdir : validate_direction dir dirs with
      | none => rfl
      | some sign =>
          dsimp only
          rw [pyIntExc_digits dgs h0 hdg, okBind, hfm, okBind, hfs, okBind]
          have hflt : ∀ q : ℚ, pyFloat (.float q) = .ok q := fun q => rfl
          rw [validate_range_eval _ _ _ _ _ _ (hflt _) (hflt _) (hflt _), okBind]
          have hv : (((digitsToNat dgs : ℕ) : ℤ) : ℚ) +
              ((digitsToNat [c, d] : ℕ) : ℚ) / MINUTES_IN_ONE_DEGREE +
              ((digitsToNat [e, f] : ℕ) : ℚ) / SECONDS_IN_ONE_DEGREE =
              ((digitsToNat dgs : ℕ) : ℚ) + ((digitsToNat [c, d] : ℕ) : ℚ) / 60 +
              ((digitsToNat [e, f] : ℕ) : ℚ) / 3600 := by
            unfold MINUTES_IN_ONE_DEGREE SECONDS_IN_ONE_DEGREE
            push_cast
            ring
          rw [hv]
          have hnnv : ¬ (((digitsToNat dgs : ℕ) : ℚ) + ((digitsToNat [c, d] : ℕ) : ℚ) / 60 +
              ((digitsToNat [e, f] : ℕ) : ℚ) / 3600 < 0) := not_lt.mpr (by positivity)
          rw [if_neg hnnv]
          by_cases hmx : maxd < ((digitsToNat dgs : ℕ) : ℚ) +
              ((digitsToNat [c, d] : ℕ) : ℚ) / 60 + ((digitsToNat [e, f] : ℕ) : ℚ) / 3600
          · rw [if_pos hmx, if_pos hmx]
            rfl
          · rw [if_neg hmx, if_neg hmx]
            rfl

lemma digitsToNat_pair (c d : Char) : digitsToNat [c, d] = 10 * digitVal c + digitVal d := by
  simp [digitsToNat]

lemma validate_direction_N : validate_direction 'N' ['N', 'S'] = some 1 := by decide

lemma validate_direction_S : validate_direction 'S' ['N', 'S'] = some (-1) := by decide

lemma lat_guarded_eq (a b c d e f g : Char) :
    validate_lat_or_lon
      (if [a, b, c, d, e, f].all Char.isDigit && (g = 'N' || g = 'S') then
        some (⟨[a, b]⟩, ⟨[c, d]⟩, ⟨[e, f]⟩, g) else none) ['N', 'S'] MAX_LATITUDE =
      .ok (specLatCore a b c d e f g) := by
  by_cases h6 : ([a, b, c, d, e, f].all Char.isDigit && (g = 'N' || g = 'S')) = true
  · rw [if_pos h6]
    obtain ⟨hdig, hdir⟩ := Bool.and_eq_true_iff.mp h6
    have hds : [a, b].all Char.isDigit = true ∧ [c, d].all Char.isDigit = true ∧
        [e, f].all Char.isDigit = true := by
      simp only [List.all_cons, List.all_nil, Bool.and_eq_true] at hdig ⊢
      tauto
    have hc : c.isDigit = true := by
      simp only [List.all_cons, Bool.and_eq_true] at hds
      tauto
    have hd : d.isDigit = true := by
      simp only [List.all_cons, Bool.and_eq_true] at hds
      tauto
    have he : e.isDigit = true := by
      simp only [List.all_cons, Bool.and_eq_true] at hds
      tauto
    have hf : f.isDigit = true := by
      simp only [List.all_cons, Bool.and_eq_true] at hds
      tauto
    rw [validate_lat_or_lon_eval [a, b] c d e f g ['N', 'S'] MAX_LATITUDE (by simp) hds.1
      hc hd he hf]
    unfold specLatCore
    rw [if_pos h6]
    congr 1
    have hmm : ((digitsToNat [c, d] : ℕ) : ℚ) = ((10 * digitVal c + digitVal d : ℕ) : ℚ) := by
      rw [digitsToNat_pair]
    have hss : ((digitsToNat [e, f] : ℕ) : ℚ) = ((10 * digitVal e + digitVal f : ℕ) : ℚ) := by
      rw [digitsToNat_pair]
    have hdd : ((digitsToNat [a, b] : ℕ) : ℚ) = ((10 * digitVal a + digitVal b : ℕ) : ℚ) := by
      rw [digitsToNat_pair]
    rw [hmm, hss, hdd]
    set mm : ℚ := ((10 * digitVal c + digitVal d : ℕ) : ℚ) with hmdef
    set ss : ℚ := ((10 * digitVal e + digitVal f : ℕ) : ℚ) with hsdef
    set vv : ℚ := ((10 * digitVal a + digitVal b : ℕ) : ℚ) + mm / 60 + ss / 3600 with hvdef
    have hmm0 : (0 : ℚ) ≤ mm := by positivity
    have hss0 : (0 : ℚ) ≤ ss := by positivity
    have hvv0 : (0 : ℚ) ≤ vv := by
      rw [hvdef]
      positivity
    have hsgn : validate_direction g ['N', 'S'] = some (if g = 'N' then 1 else -1) := by
      rcases Bool.or_eq_true_iff.mp hdir with hN | hS
      · have : g = 'N' := by simpa using hN
        subst this
        simp [validate_direction_N]
      · have : g = 'S' := by simpa using hS
        subst this
        have : ('S' : Char) ≠ 'N' := by decide
        simp [validate_direction_S, this]
    rw [hsgn]
    unfold MAX_LATITUDE
    by_cases h1 : (60 : ℚ) < mm
    · rw [if_pos h1, if_neg (by intro hcon; exact absurd hcon.2.1 (not_le.mpr h1))]
    · rw [if_neg h1]
      by_cases h2 : (60 : ℚ) < ss
      · rw [if_pos h2, if_neg (by intro hcon; exact absurd hcon.2.2.2.1 (not_le.mpr h2))]
      · rw [if_neg h2]
        dsimp only
        by_cases h3 : (90 : ℚ) < vv
        · rw [if_pos h3, if_neg (by intro hcon; exact absurd hcon.2.2.2.2.2 (not_le.mpr h3))]
        · rw [if_neg h3]
          have hcond : 0 ≤ mm ∧ mm ≤ 60 ∧ 0 ≤ ss ∧ ss ≤ 60 ∧
              0 ≤ ((10 * digitVal a + digitVal b : ℕ) : ℚ) + mm / 60 + ss / 3600 ∧
              ((10 * digitVal a + digitVal b : ℕ) : ℚ) + mm / 60 + ss / 3600 ≤ 90 :=
            ⟨hmm0, not_lt.mp h1, hss0, not_lt.mp h2, hvv0, not_lt.mp h3⟩
          rw [if_pos hcond]
          by_cases hgN : g = 'N'
          · simp only [hgN, if_true, Int.cast_one, one_mul, Option.some.injEq]
          · simp only [hgN, if_false, Option.some.injEq, Int.cast_neg, Int.cast_one]
  · rw [if_neg h6]
    unfold specLatCore
    rw [if_neg h6]
    rfl

lemma validate_lat_eq_spec (s : String) : validate_lat s = .ok (specLatAmended s) := by
  obtain ⟨l⟩ := s
  rcases l with _ | ⟨a, _ | ⟨b, _ | ⟨c, _ | ⟨d, _ | ⟨e, _ | ⟨f, _ | ⟨g, _ | ⟨h, _ | ⟨i, rest⟩⟩⟩⟩⟩⟩⟩⟩⟩
  · rfl
  · rfl
  · rfl
  · rfl
  · rfl
  · rfl
  · rfl
  · show validate_lat_or_lon (matchLat ⟨[a, b, c, d, e, f, g]⟩) ['N', 'S'] MAX_LATITUDE =
      .ok (specLatAmended ⟨[a, b, c, d, e, f, g]⟩)
    have hm : matchLat ⟨[a, b, c, d, e, f, g]⟩ =
        (if [a, b, c, d, e, f].all Char.isDigit && (g = 'N' || g = 'S') then
          some (⟨[a, b]⟩, ⟨[c, d]⟩, ⟨[e, f]⟩, g) else none) := rfl
    have hsp : specLatAmended ⟨[a, b, c, d, e, f, g]⟩ = specLatCore a b c d e f g := rfl
    rw [hm, hsp]
    exact lat_guarded_eq a b c d e f g
  · show validate_lat_or_lon (matchLat ⟨[a, b, c, d, e, f, g, h]⟩) ['N', 'S'] MAX_LATITUDE =
      .ok (specLatAmended ⟨[a, b, c, d, e, f, g, h]⟩)
    have hm : matchLat ⟨[a, b, c, d, e, f, g, h]⟩ =
        (if [a, b, c, d, e, f].all Char.isDigit && (g = 'N' || g = 'S') && h = '\n' then
          some (⟨[a, b]⟩, ⟨[c, d]⟩, ⟨[e, f]⟩, g) else none) := rfl
    have hsp : specLatAmended ⟨[a, b, c, d, e, f, g, h]⟩ =
        (if h = '\n' then specLatCore a b c d e f g else none) := rfl
    rw [hm, hsp]
    by_cases hh : h = '\n'
    · subst hh
      rw [if_pos rfl]
      have hg : ([a, b, c, d, e, f].all Char.isDigit && (g = 'N' || g = 'S') &&
          ('\n' = '\n' : Bool)) = ([a, b, c, d, e, f].all Char.isDigit && (g = 'N' || g = 'S')) := by
        simp
      rw [hg]
      exact lat_guarded_eq a b c d e f g
    · rw [if_neg hh]
      have hg : ([a, b, c, d, e, f].all Char.isDigit && (g = 'N' || g = 'S') &&
          (h = '\n' : Bool)) = false := by
        simp [hh]
      rw [hg]
      rfl
  · rfl

lemma validate_direction_cases (dir : Char) (dirs : List Char) (sign : ℤ)
    (h : validate_direction dir dirs = some sign) : sign = 1 ∨ sign = -1 := by
  unfold validate_direction at h
  split_ifs at h
  · exact Or.inl (Option.some.inj h).symm
  · exact Or.inr (Option.some.inj h).symm

lemma validate_lat_or_lon_bounds (m : Option (String × String × String × Char))
    (dirs : List Char) (maxd : ℚ) (q : ℚ) (hmax : 0 ≤ maxd)
    (h : validate_lat_or_lon m dirs maxd = .ok (some q)) :
    -maxd ≤ q ∧ q ≤ maxd := by
  rcases m with _ | ⟨dg, mn, sc, dir⟩
  · exact absurd (Except.ok.inj h) (by simp)
  · simp only [validate_lat_or_lon] at h
    cases h1 : validate_range (.str mn) (.int 0) (.int 60) with
    | error e => rw [h1, errBind] at h; exact absurd h (by simp)
    | ok minutes? =>
        rw [h1, okBind] at h
        cases minutes? with
        | none => exact absurd (Except.ok.inj h) (by simp)
        | some minutes =>
            dsimp only at h
            cases h2 : validate_range (.str sc) (.int 0) (.int 60) with
            | error e => rw [h2, errBind] at h; exact absurd h (by simp)
            | ok seconds? =>
                rw [h2, okBind] at h
                cases seconds? with
                | none => exact absurd (Except.ok.inj h) (by simp)
                | some seconds =>
                    dsimp only at h
                    cases hdir : validate_direction dir dirs with
                    | none => rw [hdir] at h; exact absurd (Except.ok.inj h) (by simp)
                    | some sign =>
                        rw [hdir] at h
                        dsimp only at h
                        cases h3 : pyIntExc dg with
                        | error e => rw [h3, errBind] at h; exact absurd h (by simp)
                        | ok dgN =>
                            rw [h3, okBind] at h
                            cases h4 : pyFloat minutes with
                            | error e => rw [h4, errBind] at h; exact absurd h (by simp)
                            | ok mq =>
                                rw [h4, okBind] at h
                                cases h5 : pyFloat seconds with
                                | error e => rw [h5, errBind] at h; exact absurd h (by simp)
                                | ok sq =>
                                    rw [h5, okBind] at h
                                    have hflt : ∀ r : ℚ, pyFloat (.float r) = .ok r :=
                                      fun r => rfl
                                    rw [validate_range_eval _ _ _ _ _ _ (hflt _) (hflt _)
                                      (hflt _), okBind] at h
                                    set v : ℚ := (dgN : ℚ) + mq / MINUTES_IN_ONE_DEGREE +
                                      sq / SECONDS_IN_ONE_DEGREE with hv
                                    by_cases hlt : v < 0
                                    · rw [if_pos hlt] at h
                                      exact absurd (Except.ok.inj h) (by simp)
                                    · rw [if_neg hlt] at h
                                      by_cases hgt : maxd < v
                                      · rw [if_pos hgt] at h
                                        exact absurd (Except.ok.inj h) (by simp)
                                      · rw [if_neg hgt] at h
                                        have hq : q = (sign : ℚ) * v := by
                                          have := Except.ok.inj h
                                          simpa using this.symm
                                        have h0v : 0 ≤ v := not_lt.mp hlt
                                        have hvm : v ≤ maxd := not_lt.mp hgt
                                        rcases validate_direction_cases dir dirs sign hdir
                                          with rfl | rfl
                                        · rw [hq]
                                          constructor <;> push_cast <;> linarith
                                        · rw [hq]
                                          constructor <;> push_cast <;> linarith

lemma matchLon_shape (s : String) (dg mn sc : String) (dir : Char)
    (h : matchLon s = some (dg, mn, sc, dir)) :
    ∃ dgl cc dd ee ff, dg = ⟨dgl⟩ ∧ mn = ⟨[cc, dd]⟩ ∧ sc = ⟨[ee, ff]⟩ ∧ dgl ≠ [] ∧
      dgl.all Char.isDigit = true ∧ cc.isDigit = true ∧ dd.isDigit = true ∧
      ee.isDigit = true ∧ ff.isDigit = true := by
  unfold matchLon at h
  split at h
  · rename_i x a b c d e f g hx
    split_ifs at h with hg
    obtain ⟨hdig, _⟩ := Bool.and_eq_true_iff.mp hg
    simp only [List.all_cons, List.all_nil, Bool.and_eq_true] at hdig
    simp only [Option.some.injEq, Prod.mk.injEq] at h
    obtain ⟨h1, h2, h3, _⟩ := h
    exact ⟨[a, b], c, d, e, f, h1.symm, h2.symm, h3.symm, by simp, by simp [hdig.1, hdig.2.1],
      hdig.2.2.1, hdig.2.2.2.1, hdig.2.2.2.2.1, hdig.2.2.2.2.2.1⟩
  · rename_i x a b c d e f g hh hx
    split_ifs at h with hg1 hg2
    · obtain ⟨hdig, _⟩ := Bool.and_eq_true_iff.mp hg1
      simp only [List.all_cons, List.all_nil, Bool.and_eq_true] at hdig
      simp only [Option.some.injEq, Prod.mk.injEq] at h
      obtain ⟨h1, h2, h3, _⟩ := h
      exact ⟨[a, b, c], d, e, f, g, h1.symm, h2.symm, h3.symm, by simp,
        by simp [hdig.1, hdig.2.1, hdig.2.2.1], hdig.2.2.2.1, hdig.2.2.2.2.1,
        hdig.2.2.2.2.2.1, hdig.2.2.2.2.2.2.1⟩
    · obtain ⟨hdig, _⟩ := Bool.and_eq_true_iff.mp (Bool.and_eq_true_iff.mp hg2).1
      simp only [List.all_cons, List.all_nil, Bool.and_eq_true] at hdig
      simp only [Option.some.injEq, Prod.mk.injEq] at h
      obtain ⟨h1, h2, h3, _⟩ := h
      exact ⟨[a, b], c, d, e, f, h1.symm, h2.symm, h3.symm, by simp,
        by simp [hdig.1, hdig.2.1], hdig.2.2.1, hdig.2.2.2.1, hdig.2.2.2.2.1,
        hdig.2.2.2.2.2.1⟩
  · rename_i x a b c d e f g hh i hx
    split_ifs at h with hg
    obtain ⟨hdig, _⟩ := Bool.and_eq_true_iff.mp (Bool.and_eq_true_iff.mp hg).1
    simp only [List.all_cons, List.all_nil, Bool.and_eq_true] at hdig
    simp only [Option.some.injEq, Prod.mk.injEq] at h
    obtain ⟨h1, h2, h3, _⟩ := h
    exact ⟨[a, b, c], d, e, f, g, h1.symm, h2.symm, h3.symm, by simp,
      by simp [hdig.1, hdig.2.1, hdig.2.2.1], hdig.2.2.2.1, hdig.2.2.2.2.1,
      hdig.2.2.2.2.2.1, hdig.2.2.2.2.2.2.1⟩
  · exact absurd h (by simp)

lemma getItem_ident (r : RawNotam) : getItem r "ident" =
    (match r.ident? with | some s => .ok s | none => .error (.keyError "ident")) := rfl

lemma getItem_lat (r : RawNotam) : getItem r "lat" =
    (match r.lat? with | some s => .ok s | none => .error (.keyError "lat")) := rfl

lemma getItem_lon (r : RawNotam) : getItem r "lon" =
    (match r.lon? with | some s => .ok s | none => .error (.keyError "lon")) := rfl

lemma getItem_rad (r : RawNotam) : getItem r "rad" =
    (match r.rad? with | some s => .ok s | none => .error (.keyError "rad")) := rfl

lemma importStep_true_accepted (ii : ℕ) (n : RawNotam) (es : List String)
    (h : importStep ii n = .ok (true, es)) : acceptedRecord n = true := by
  unfold importStep at h
  cases hid : n.ident? with
  | none =>
      rw [getItem_ident, hid] at h
      exact absurd h (by simp [errBind])
  | some si =>
      rw [getItem_ident, hid] at h
      rw [okBind] at h
      dsimp only at h
      cases hlt : n.lat? with
      | none =>
          rw [getItem_lat, hlt] at h
          exact absurd h (by simp [errBind])
      | some slat =>
          rw [getItem_lat, hlt] at h
          rw [okBind] at h
          cases hvlat : validate_lat (pyUpper slat) with
          | error e => rw [hvlat, errBind] at h; exact absurd h (by simp)
          | ok latV =>
              rw [hvlat, okBind] at h
              cases hln : n.lon? with
              | none =>
                  rw [getItem_lon, hln] at h
                  exact absurd h (by simp [errBind])
              | some slon =>
                  rw [getItem_lon, hln] at h
                  rw [okBind] at h
                  cases hvlon : validate_lon (pyUpper slon) with
                  | error e => rw [hvlon, errBind] at h; exact absurd h (by simp)
                  | ok lonV =>
                      rw [hvlon, okBind] at h
                      cases hrd : n.rad? with
                      | none =>
                          rw [getItem_rad, hrd] at h
                          exact absurd h (by simp [errBind])
                      | some srad =>
                          rw [getItem_rad, hrd] at h
                          rw [okBind] at h
                          rw [pureExcept] at h
                          have h1 := (Prod.mk.injEq _ _ _ _ ▸ Except.ok.inj h)
                          have hflag := (Prod.ext_iff.mp (Except.ok.inj h)).1
                          simp only [Bool.and_eq_true] at hflag
                          unfold acceptedRecord
                          rw [hid, hlt, hln, hrd]
                          dsimp only
                          rw [hvlat, hvlon]
                          simp only [Option.isSome_some, Bool.true_and]
                          obtain ⟨⟨⟨⟨_, hident⟩, hlatS⟩, hlonS⟩, hradS⟩ := hflag
                          rw [hident]
                          cases latV with
                          | none => exact absurd hlatS (by simp)
                          | some q =>
                              cases lonV with
                              | none => exact absurd hlonS (by simp)
                              | some q2 =>
                                  simp only [Bool.true_and]
                                  exact hradS

lemma importGo_accepted : ∀ (raws : List RawNotam) (ii : ℕ) (acc : List RawNotam)
    (errs : List String), importGo ii raws = .ok (acc, errs) →
    ∀ r ∈ acc, acceptedRecord r = true := by
  intro raws
  induction raws with
  | nil =>
      intro ii acc errs h r hr
      have hacc : acc = [] := by
        have := Except.ok.inj h
        exact ((Prod.ext_iff.mp this).1).symm
      subst hacc
      exact absurd hr (by simp)
  | cons n rest ih =>
      intro ii acc errs h r hr
      unfold importGo at h
      cases h1 : importStep ii n with
      | error e => rw [h1, errBind] at h; exact absurd h (by simp)
      | ok p =>
          obtain ⟨valid, errs1⟩ := p
          rw [h1, okBind] at h
          dsimp only at h
          cases h2 : importGo (ii + 1) rest with
          | error e => rw [h2, errBind] at h; exact absurd h (by simp)
          | ok p2 =>
              obtain ⟨acc2, errs2⟩ := p2
              rw [h2, okBind] at h
              dsimp only at h
              rw [pureExcept] at h
              cases valid with
              | true =>
                  have hacc : n :: acc2 = acc := by
                    simpa using congrArg Prod.fst (Except.ok.inj h)
                  rw [← hacc] at hr
                  rcases List.mem_cons.mp hr with rfl | hr2
                  · exact importStep_true_accepted ii r errs1 h1
                  · exact ih (ii + 1) acc2 errs2 h2 r hr2
              | false =>
                  have hacc : acc2 = acc := by
                    simpa using congrArg Prod.fst (Except.ok.inj h)
                  rw [← hacc] at hr
                  exact ih (ii + 1) acc2 errs2 h2 r hr

lemma validate_ident_self (s t : String) (h : validate_ident s = some t) :
    t = s ∧ matchesIdent s.data = true := by
  unfold validate_ident at h
  split_ifs at h with hm
  exact ⟨(Option.some.inj h).symm, hm⟩

lemma matchesIdent_length (l : List Char) (h : matchesIdent l = true) :
    1 ≤ l.length ∧ l.length ≤ 21 := by
  unfold matchesIdent at h
  rcases Bool.or_eq_true_iff.mp h with h1 | h2
  · simp only [Bool.and_eq_true, decide_eq_true_eq] at h1
    exact ⟨h1.1.1, le_trans h1.1.2 (by norm_num)⟩
  · cases hl : l.getLast? with
    | none => rw [hl] at h2; exact absurd h2 (by simp)
    | some c =>
        rw [hl] at h2
        simp only [Bool.and_eq_true, decide_eq_true_eq] at h2
        have hlen : l.dropLast.length = l.length - 1 := List.length_dropLast l
        have hne : l ≠ [] := by rintro rfl; simp at hl
        have hpos : 1 ≤ l.length := List.length_pos.mpr hne
        obtain ⟨⟨⟨_, hA⟩, hB⟩, _⟩ := h2
        rw [hlen] at hB
        exact ⟨hpos, by omega⟩

lemma validate_lon_total (s : String) : ∃ v, validate_lon s = .ok v := by
  unfold validate_lon
  cases hm : matchLon s with
  | none => exact ⟨none, rfl⟩
  | some t =>
      obtain ⟨dg, mn, sc, dir⟩ := t
      obtain ⟨dgl, cc, dd, ee, ff, h1, h2, h3, hne, hall, hc, hd, he, hf⟩ :=
        matchLon_shape s dg mn sc dir hm
      subst h1; subst h2; subst h3
      exact ⟨_, validate_lat_or_lon_eval dgl cc dd ee ff dir ['E', 'W'] MAX_LONGITUDE
        hne hall hc hd he hf⟩

/-- C3, counterexample: validate_range is claimed to return a value or the
invalid sentinel for every string input, but a string that does not parse
as a float makes the float cast raise ValueError. -/
theorem claim_C3_validate_range_raises :
    validate_range (.str "abc") (.int 0) (.int 60) =
      .error (.valueError "could not convert string to float: abc") := by decide

/-- C3 as amended: validate_lat and validate_lon are total over strings and
never raise, and validate_range returns the value or the invalid sentinel
for every triple of arguments that cast to float (ints, floats, numeric
strings); only a non-numeric string argument makes it raise. -/
theorem claim_C3_validators_total :
    (∀ s, ∃ v, validate_lat s = .ok v) ∧
    (∀ s, ∃ v, validate_lon s = .ok v) ∧
    (∀ number lo hi : PyVal, ∀ qn ql qh : ℚ, pyFloat number = .ok qn →
      pyFloat lo = .ok ql → pyFloat hi = .ok qh →
      validate_range number lo hi =
        .ok (if qn < ql then none else if qh < qn then none else some number)) := by
  refine ⟨fun s => ⟨specLatAmended s, validate_lat_eq_spec s⟩, validate_lon_total, ?_⟩
  intro number lo hi qn ql qh h1 h2 h3
  exact validate_range_eval number lo hi qn ql qh h1 h2 h3

/-- C3 witness: the amended validate_range statement applied at a concrete
in-range numeric string. -/
theorem claim_C3_validators_total_witness :
    validate_range (.str "45") (.int 0) (.int 60) = .ok (some (.str "45")) := by
  have h := claim_C3_validators_total.2.2 (.str "45") (.int 0) (.int 60) 45 0 60
    (by decide) (by decide) (by decide)
  rw [if_neg (by norm_num), if_neg (by norm_num)] at h
  exact h

/-- C4, counterexample: the latitude string 400000S followed by a newline
does not have the claimed shape DDMMSS plus direction, yet the validator
accepts it (the CPython dollar anchor tolerates one trailing newline). -/
theorem claim_C4_trailing_newline :
    validate_lat "400000S\n" = .ok (some (-40)) ∧ specLatClaim "400000S\n" = none :=
  ⟨by decide, by decide⟩

/-- C4 as amended: for every input string the latitude validator returns
exactly the claimed DDMMSS-with-direction evaluation, with the grammar
widened by one optional trailing newline; including the three documented
examples. -/
theorem claim_C4_validate_lat_spec :
    (∀ s, validate_lat s = .ok (specLatAmended s)) ∧
    validate_lat "903000N" = .ok none ∧
    validate_lat "900000N" = .ok (some 90) ∧
    validate_lat "400000S" = .ok (some (-40)) :=
  ⟨validate_lat_eq_spec, by decide, by decide, by decide⟩

/-- C2, counterexample: a record whose ident is twenty characters plus a
trailing newline (twenty-one characters in total) is fully accepted by the
batch validator, so an accepted record can violate the claimed bound of
one to twenty characters on the ident. -/
theorem claim_C2_ident_length_counterexample :
    import_notams
      [⟨some "AAAAAAAAAAAAAAAAAAAA\n", some "393835N", some "1174702W", some "400NM"⟩] =
      .ok ([⟨some "AAAAAAAAAAAAAAAAAAAA\n", some "393835N", some "1174702W", some "400NM"⟩],
        []) ∧
    20 < ("AAAAAAAAAAAAAAAAAAAA\n" : String).length :=
  ⟨by decide, by decide⟩

/-- C2 as amended: every record accepted by the batch validator has all
four fields present and valid, with the ident accepted by the ident
validator (one to twenty non-newline characters, possibly followed by one
newline, hence at most twenty-one characters), the latitude value in the
interval from -90 to 90, the longitude value in the interval from -180 to
180, and the radius a natural number; a record failing any field is
entirely absent from the accepted sequence since every accepted record
satisfies all four conditions simultaneously. -/
theorem claim_C2_accepted_records_valid :
    ∀ (raws acc : List RawNotam) (errs : List String),
      import_notams raws = .ok (acc, errs) → ∀ r ∈ acc,
      (∃ si, r.ident? = some si ∧ validate_ident si = some si ∧
        1 ≤ si.length ∧ si.length ≤ 21) ∧
      (∃ sl q, r.lat? = some sl ∧ validate_lat (pyUpper sl) = .ok (some q) ∧
        -90 ≤ q ∧ q ≤ 90) ∧
      (∃ so q, r.lon? = some so ∧ validate_lon (pyUpper so) = .ok (some q) ∧
        -180 ≤ q ∧ q ≤ 180) ∧
      (∃ sr nr, r.rad? = some sr ∧ validate_radius (pyUpper sr) = some nr) := by
  intro raws acc errs h r hr
  have hacc := importGo_accepted raws 0 acc errs h r hr
  unfold acceptedRecord at hacc
  simp only [Bool.and_eq_true] at hacc
  obtain ⟨⟨⟨⟨⟨⟨⟨hidS, hltS⟩, hlnS⟩, hrdS⟩, hident⟩, hlat⟩, hlon⟩, hrad⟩ := hacc
  refine ⟨?_, ?_, ?_, ?_⟩
  · cases hid : r.ident? with
    | none => rw [hid] at hidS; exact absurd hidS (by simp)
    | some si =>
        rw [hid] at hident
        dsimp only at hident
        obtain ⟨t, ht⟩ := Option.isSome_iff_exists.mp hident
        obtain ⟨heq, hmt⟩ := validate_ident_self si t ht
        subst heq
        obtain ⟨hl1, hl2⟩ := matchesIdent_length _ hmt
        exact ⟨t, rfl, ht, hl1, hl2⟩
  · cases hlt : r.lat? with
    | none => rw [hlt] at hltS; exact absurd hltS (by simp)
    | some sl =>
        rw [hlt] at hlat
        dsimp only at hlat
        cases hv : validate_lat (pyUpper sl) with
        | error e => rw [hv] at hlat; exact absurd hlat (by simp)
        | ok latV =>
            rw [hv] at hlat
            cases latV with
            | none => exact absurd hlat (by simp)
            | some q =>
                have hb := validate_lat_or_lon_bounds (matchLat (pyUpper sl)) ['N', 'S']
                  MAX_LATITUDE q (by norm_num [MAX_LATITUDE]) hv
                refine ⟨sl, q, rfl, hv, ?_, ?_⟩
                · have := hb.1
                  norm_num [MAX_LATITUDE] at this
                  exact this
                · have := hb.2
                  norm_num [MAX_LATITUDE] at this
                  exact this
  · cases hln : r.lon? with
    | none => rw [hln] at hlnS; exact absurd hlnS (by simp)
    | some so =>
        rw [hln] at hlon
        dsimp only at hlon
        cases hv : validate_lon (pyUpper so) with
        | error e => rw [hv] at hlon; exact absurd hlon (by simp)
        | ok lonV =>
            rw [hv] at hlon
            cases lonV with
            | none => exact absurd hlon (by simp)
            | some q =>
                have hb := validate_lat_or_lon_bounds (matchLon (pyUpper so)) ['E', 'W']
                  MAX_LONGITUDE q (by norm_num [MAX_LONGITUDE]) hv
                refine ⟨so, q, rfl, hv, ?_, ?_⟩
                · have := hb.1
                  norm_num [MAX_LONGITUDE] at this
                  exact this
                · have := hb.2
                  norm_num [MAX_LONGITUDE] at this
                  exact this
  · cases hrd : r.rad? with
    | none => rw [hrd] at hrdS; exact absurd hrdS (by simp)
    | some sr =>
        rw [hrd] at hrad
        dsimp only at hrad
        obtain ⟨nr, hnr⟩ := Option.isSome_iff_exists.mp hrad
        exact ⟨sr, nr, rfl, hnr⟩

/-- C2 witness: the amended statement applied to a concrete one-record
batch that the importer accepts unchanged. -/
theorem claim_C2_accepted_records_valid_witness :
    (∃ si, (⟨some "10/133", some "393835N", some "1174702W", some "400NM"⟩ :
        RawNotam).ident? = some si ∧ validate_ident si = some si ∧
      1 ≤ si.length ∧ si.length ≤ 21) ∧
    (∃ sl q, (⟨some "10/133", some "393835N", some "1174702W", some "400NM"⟩ :
        RawNotam).lat? = some sl ∧ validate_lat (pyUpper sl) = .ok (some q) ∧
      -90 ≤ q ∧ q ≤ 90) ∧
    (∃ so q, (⟨some "10/133", some "393835N", some "1174702W", some "400NM"⟩ :
        RawNotam).lon? = some so ∧ validate_lon (pyUpper so) = .ok (some q) ∧
      -180 ≤ q ∧ q ≤ 180) ∧
    (∃ sr nr, (⟨some "10/133", some "393835N", some "1174702W", some "400NM"⟩ :
        RawNotam).rad? = some sr ∧ validate_radius (pyUpper sr) = some nr) :=
  claim_C2_accepted_records_valid
    [⟨some "10/133", some "393835N", some "1174702W", some "400NM"⟩]
    [⟨some "10/133", some "393835N", some "1174702W", some "400NM"⟩] []
    (by decide) _ (by simp)

lemma takeWhile_append_eq (p : Char → Bool) : ∀ (ds rest : List Char),
    (∀ c ∈ ds, p c = true) → (∀ r t, rest = r :: t → p r = false) →
    (ds ++ rest).takeWhile p = ds ∧ (ds ++ rest).dropWhile p = rest := by
  intro ds
  induction ds with
  | nil =>
      intro rest h1 h2
      cases rest with
      | nil => simp
      | cons r t => simp [List.takeWhile, List.dropWhile, h2 r t rfl]
  | cons x xs ih =>
      intro rest h1 h2
      have hx : p x = true := h1 x (by simp)
      have hr := ih rest (fun c hc => h1 c (by simp [hc])) h2
      simp only [List.cons_append, List.takeWhile, List.dropWhile, hx]
      simp [hr.1, hr.2]

lemma validate_radius_iff (s : String) (n : ℕ) :
    validate_radius s = some n ↔ radiusCodeGrammar s n := by
  constructor
  · intro h
    unfold validate_radius at h
    dsimp only at h
    split_ifs at h with h1 h2
    refine ⟨s.data.takeWhile Char.isDigit, s.data.dropWhile Char.isDigit,
      (List.takeWhile_append_dropWhile Char.isDigit s.data).symm, ?_, ?_, ?_,
      (Option.some.inj h).symm⟩
    · intro hcon
      rw [hcon] at h1
      exact absurd rfl h1
    · intro c hc
      exact List.mem_takeWhile_imp hc
    · simp only [Bool.or_eq_true, decide_eq_true_eq] at h2
      tauto
  · rintro ⟨ds, rest, hsplit, hne, hdig, hrest, rfl⟩
    have hhead : ∀ r t, rest = r :: t → Char.isDigit r = false := by
      intro r t hrt
      rcases hrest with rfl | rfl | rfl | rfl
      · exact absurd hrt (by simp)
      · obtain ⟨rfl, -⟩ := List.cons.inj hrt
        decide
      · obtain ⟨rfl, -⟩ := List.cons.inj hrt
        decide
      · obtain ⟨rfl, -⟩ := List.cons.inj hrt
        decide
    obtain ⟨ht, hd⟩ := takeWhile_append_eq Char.isDigit ds rest hdig hhead
    unfold validate_radius
    rw [hsplit]
    dsimp only
    rw [ht, hd]
    have hne2 : ¬ ds.isEmpty = true := by
      cases ds with
      | nil => exact absurd rfl hne
      | cons a t => simp
    rw [if_neg hne2]
    have : (rest = [] || rest = ['\n'] || rest = ['N', 'M'] || rest = ['N', 'M', '\n']) = true := by
      rcases hrest with rfl | rfl | rfl | rfl <;> simp
    rw [if_pos this]

/-- C6, counterexample: the string 400 followed by a newline is not of the
claimed digits-then-optional-NM shape, yet the radius validator accepts it
with value 400 (the CPython dollar anchor tolerates one trailing
newline). -/
theorem claim_C6_trailing_newline :
    validate_radius "400\n" = some 400 ∧ ¬ radiusClaimGrammar "400\n" 400 := by
  refine ⟨by decide, ?_⟩
  rintro ⟨ds, rest, hsplit, hne, hdig, hrest, -⟩
  have hdata : ("400\n" : String).data = ['4', '0', '0', '\n'] := rfl
  rw [hdata] at hsplit
  rcases hrest with rfl | rfl
  · rw [List.append_nil] at hsplit
    have hmem : '\n' ∈ ds := by rw [← hsplit]; simp
    have := hdig '\n' hmem
    exact absurd this (by decide)
  · have hlen : ds.length = 2 := by
      have := congrArg List.length hsplit
      simp at this
      omega
    have hsplit2 : (['4', '0'] : List Char) ++ ['0', '\n'] = ds ++ ['N', 'M'] := hsplit
    have := (List.append_inj hsplit2 (by simp [hlen])).2
    simp at this

/-- C6 as amended: for every input string, validate_radius returns the
integer value of the digit run exactly when the string is one or more
decimal digits, optionally followed by the literal suffix NM, optionally
followed by one trailing newline (CPython dollar anchor); otherwise it
returns the invalid sentinel.  The four documented examples hold. -/
theorem claim_C6_radius_spec :
    (∀ (s : String) (n : ℕ), validate_radius s = some n ↔ radiusCodeGrammar s n) ∧
    validate_radius "400NM" = some 400 ∧ validate_radius "400" = some 400 ∧
    validate_radius "NM" = none ∧ validate_radius "-5" = none :=
  ⟨validate_radius_iff, by decide, by decide, by decide, by decide⟩

/-- C6 witness: the grammar characterisation instantiated at 400NM. -/
theorem claim_C6_radius_spec_witness : radiusCodeGrammar "400NM" 400 :=
  (claim_C6_radius_spec.1 "400NM" 400).mp (by decide)

lemma acceptedRecord_fields (r : RawNotam) (h : acceptedRecord r = true) :
    ∃ si sl so sr q q2 nr, r.ident? = some si ∧ r.lat? = some sl ∧ r.lon? = some so ∧
      r.rad? = some sr ∧ validate_ident si = some si ∧
      validate_lat (pyUpper sl) = .ok (some q) ∧ validate_lon (pyUpper so) = .ok (some q2) ∧
      validate_radius (pyUpper sr) = some nr := by
  unfold acceptedRecord at h
  simp only [Bool.and_eq_true] at h
  obtain ⟨⟨⟨⟨⟨⟨⟨hidS, hltS⟩, hlnS⟩, hrdS⟩, hident⟩, hlat⟩, hlon⟩, hrad⟩ := h
  cases hid : r.ident? with
  | none => rw [hid] at hidS; exact absurd hidS (by simp)
  | some si =>
  cases hlt : r.lat? with
  | none => rw [hlt] at hltS; exact absurd hltS (by simp)
  | some sl =>
  cases hln : r.lon? with
  | none => rw [hln] at hlnS; exact absurd hlnS (by simp)
  | some so =>
  cases hrd : r.rad? with
  | none => rw [hrd] at hrdS; exact absurd hrdS (by simp)
  | some sr =>
  rw [hid] at hident
  rw [hlt] at hlat
  rw [hln] at hlon
  rw [hrd] at hrad
  dsimp only at hident hlat hlon hrad
  obtain ⟨t, ht⟩ := Option.isSome_iff_exists.mp hident
  obtain ⟨heq, -⟩ := validate_ident_self si t ht
  subst heq
  obtain ⟨nr, hnr⟩ := Option.isSome_iff_exists.mp hrad
  cases hv : validate_lat (pyUpper sl) with
  | error e => rw [hv] at hlat; exact absurd hlat (by simp)
  | ok latV =>
  rw [hv] at hlat
  cases latV with
  | none => exact absurd hlat (by simp)
  | some q =>
  cases hv2 : validate_lon (pyUpper so) with
  | error e => rw [hv2] at hlon; exact absurd hlon (by simp)
  | ok lonV =>
  rw [hv2] at hlon
  cases lonV with
  | none => exact absurd hlon (by simp)
  | some q2 =>
  exact ⟨t, sl, so, sr, q, q2, nr, rfl, rfl, rfl, rfl, ht, hv, hv2, hnr⟩

lemma importStep_of_accepted (ii : ℕ) (r : RawNotam) (h : acceptedRecord r = true) :
    importStep ii r = .ok (true, []) := by
  obtain ⟨si, sl, so, sr, q, q2, nr, hid, hlt, hln, hrd, hvi, hvl, hvo, hvr⟩ :=
    acceptedRecord_fields r h
  unfold importStep
  have hkeys : (NOTAM_KEYS.filter (fun k => !hasKey r k)) = [] := by
    simp [NOTAM_KEYS, hasKey, hid, hlt, hln, hrd]
  rw [getItem_ident, hid, okBind, getItem_lat, hlt, okBind, hvl, okBind]
  rw [getItem_lon, hln, okBind, hvo, okBind, getItem_rad, hrd, okBind]
  rw [pureExcept]
  rw [hkeys]
  dsimp only
  rw [hvi, hvr]
  simp

lemma importGo_of_accepted : ∀ (raws : List RawNotam) (ii : ℕ),
    (∀ r ∈ raws, acceptedRecord r = true) → importGo ii raws = .ok (raws, []) := by
  intro raws
  induction raws with
  | nil => intro ii _; rfl
  | cons n rest ih =>
      intro ii h
      unfold importGo
      rw [importStep_of_accepted ii n (h n (by simp)), okBind]
      dsimp only
      rw [ih (ii + 1) (fun r hr => h r (by simp [hr])), okBind]
      dsimp only
      rw [pureExcept]
      simp

lemma findMatchGo_spec (ident lat lon rad : String) :
    ∀ (l : List RawNotam) (ii : ℕ),
    (∀ r ∈ l, r.ident?.isSome ∧ r.lat?.isSome ∧ r.lon?.isSome ∧ r.rad?.isSome) →
    findMatchGo ident lat lon rad ii l =
      .ok (l.findIdx? (matchesArgs ident lat lon rad) ii) := by
  intro l
  induction l with
  | nil => intro ii _; rfl
  | cons n rest ih =>
      intro ii h
      obtain ⟨hidS, hltS, hlnS, hrdS⟩ := h n (by simp)
      obtain ⟨si, hid⟩ := Option.isSome_iff_exists.mp hidS
      obtain ⟨sl, hlt⟩ := Option.isSome_iff_exists.mp hltS
      obtain ⟨so, hln⟩ := Option.isSome_iff_exists.mp hlnS
      obtain ⟨sr, hrd⟩ := Option.isSome_iff_exists.mp hrdS
      have hrest : ∀ r ∈ rest, r.ident?.isSome = true ∧ r.lat?.isSome = true ∧
          r.lon?.isSome = true ∧ r.rad?.isSome = true := fun r hr => h r (by simp [hr])
      unfold findMatchGo
      rw [getItem_ident, hid]
      simp only [okBind]
      rw [List.findIdx?_cons]
      by_cases h1 : si = ident
      · rw [if_pos h1]
        rw [getItem_lat, hlt]
        simp only [okBind]
        by_cases h2 : sl = lat
        · rw [if_pos h2]
          rw [getItem_lon, hln]
          simp only [okBind]
          by_cases h3 : so = lon
          · rw [if_pos h3]
            rw [getItem_rad, hrd]
            simp only [okBind]
            by_cases h4 : sr = rad
            · rw [if_pos h4]
              have hm : matchesArgs ident lat lon rad n = true := by
                simp [matchesArgs, hid, hlt, hln, hrd, h1, h2, h3, h4]
              rw [hm, if_pos rfl, pureExcept]
            · rw [if_neg h4]
              have hm : matchesArgs ident lat lon rad n = false := by
                simp [matchesArgs, hid, hlt, hln, hrd, h1, h2, h3, h4]
              rw [hm]
              simp only [Bool.false_eq_true, if_false]
              exact ih (ii + 1) hrest
          · rw [if_neg h3]
            have hm : matchesArgs ident lat lon rad n = false := by
              simp [matchesArgs, hid, hlt, hln, hrd, h1, h2, h3]
            rw [hm]
            simp only [Bool.false_eq_true, if_false]
            exact ih (ii + 1) hrest
        · rw [if_neg h2]
          have hm : matchesArgs ident lat lon rad n = false := by
            simp [matchesArgs, hid, hlt, hln, hrd, h1, h2]
          rw [hm]
          simp only [Bool.false_eq_true, if_false]
          exact ih (ii + 1) hrest
      · rw [if_neg h1]
        have hm : matchesArgs ident lat lon rad n = false := by
          simp [matchesArgs, hid, hlt, hln, hrd, h1]
        rw [hm]
        simp only [Bool.false_eq_true, if_false]
        exact ih (ii + 1) hrest

/-- C10, counterexample: deletion is claimed to remove only the first
record matching all four fields, but delete_notam rewrites the store with
the re-imported (validated) list, so a stored record with an invalid
latitude is silently dropped alongside the matched record: the file goes
from two records to empty instead of keeping the non-matching record. -/
theorem claim_C10_invalid_record_dropped :
    delete_notam [⟨some "BAD", some "999999N", some "1174702W", some "400NM"⟩,
      ⟨some "10/133", some "393835N", some "1174702W", some "400NM"⟩]
      "10/133" "393835N" "1174702W" "400NM" = .ok (true, []) ∧
    ([] : List RawNotam) ≠ [⟨some "BAD", some "999999N", some "1174702W", some "400NM"⟩] :=
  ⟨by decide, by decide⟩

/-- C10 as amended: when every stored record is valid, delete_notam removes
exactly the first record whose four fields equal the arguments and returns
True with the file rewritten; when no record matches it returns False and
the store is left unchanged. -/
theorem claim_C10_delete_spec :
    ∀ (stored : List RawNotam) (ident lat lon rad : String),
      (∀ r ∈ stored, acceptedRecord r = true) →
      delete_notam stored ident lat lon rad =
        .ok (match firstMatchIdx stored ident lat lon rad with
          | some ii => (true, stored.eraseIdx ii)
          | none => (false, stored)) := by
  intro stored ident lat lon rad h
  unfold delete_notam
  have h1 : import_notams stored = .ok (stored, []) := importGo_of_accepted stored 0 h
  rw [h1]
  simp only [okBind]
  have hkeys : ∀ r ∈ stored, r.ident?.isSome = true ∧ r.lat?.isSome = true ∧
      r.lon?.isSome = true ∧ r.rad?.isSome = true := by
    intro r hr
    obtain ⟨si, sl, so, sr, q, q2, nr, hid, hlt, hln, hrd, -⟩ :=
      acceptedRecord_fields r (h r hr)
    exact ⟨by simp [hid], by simp [hlt], by simp [hln], by simp [hrd]⟩
  rw [findMatchGo_spec ident lat lon rad stored 0 hkeys]
  simp only [okBind]
  unfold firstMatchIdx
  cases stored.findIdx? (matchesArgs ident lat lon rad) with
  | none => rfl
  | some ii => rfl

/-- C10 witness: deleting the second of two valid stored records removes
exactly that record. -/
theorem claim_C10_delete_spec_witness :
    delete_notam [⟨some "10/133", some "393835N", some "1174702W", some "400NM"⟩,
      ⟨some "10/134", some "393835N", some "1174702W", some "400NM"⟩]
      "10/134" "393835N" "1174702W" "400NM" =
      .ok (true, [⟨some "10/133", some "393835N", some "1174702W", some "400NM"⟩]) := by
  have h := claim_C10_delete_spec
    [⟨some "10/133", some "393835N", some "1174702W", some "400NM"⟩,
     ⟨some "10/134", some "393835N", some "1174702W", some "400NM"⟩]
    "10/134" "393835N" "1174702W" "400NM" (by decide)
  have h2 : firstMatchIdx
      [⟨some "10/133", some "393835N", some "1174702W", some "400NM"⟩,
       ⟨some "10/134", some "393835N", some "1174702W", some "400NM"⟩]
      "10/134" "393835N" "1174702W" "400NM" = some 1 := by decide
  rw [h2] at h
  exact h.trans (by decide)

lemma toDigitsCore_length_ge (b : ℕ) : ∀ (f n : ℕ) (ds : List Char),
    ds.length ≤ (Nat.toDigitsCore b f n ds).length := by
  intro f
  induction f with
  | zero => intro n ds; simp [Nat.toDigitsCore]
  | succ f ih =>
      intro n ds
      simp only [Nat.toDigitsCore]
      split
      · simp
      · calc ds.length ≤ (((n % b).digitChar) :: ds).length := by simp
          _ ≤ _ := ih (n / b) (((n % b).digitChar) :: ds)

lemma toDigits_ne_nil (b n : ℕ) : Nat.toDigits b n ≠ [] := by
  unfold Nat.toDigits
  intro h
  have h1 : 1 ≤ (Nat.toDigitsCore b (n + 1) n []).length := by
    simp only [Nat.toDigitsCore]
    split
    · simp
    · calc 1 = ([(n % b).digitChar] : List Char).length := by simp
        _ ≤ _ := toDigitsCore_length_ge b n (n / b) [(n % b).digitChar]
  rw [h] at h1
  simp at h1

lemma natRepr_ne_empty (n : ℕ) : Nat.repr n ≠ "" := by
  unfold Nat.repr
  intro h
  have := congrArg String.data h
  simp only [List.asString] at this
  exact toDigits_ne_nil 10 n this

lemma intRepr_ne_empty (a : ℤ) : toString a ≠ "" := by
  show Int.repr a ≠ ""
  unfold Int.repr
  cases a with
  | ofNat m => exact natRepr_ne_empty m
  | negSucc m =>
      intro h
      have := congrArg String.length h
      rw [String.length_append] at this
      have h2 : ("-" : String).length = 1 := rfl
      have h3 : ("" : String).length = 0 := rfl
      omega

lemma append_comma_ne_empty (acc x : String) : acc ++ "," ++ x ≠ "" := by
  intro h
  have := congrArg String.length h
  rw [String.length_append, String.length_append] at this
  have h2 : ("," : String).length = 1 := rfl
  have h3 : ("" : String).length = 0 := rfl
  omega

lemma foldl_join_aux : ∀ (xs : List String) (acc : String), acc ≠ "" →
    xs.foldl (fun acc gs => if acc = "" then gs else acc ++ "," ++ gs) acc =
      commaJoin (acc :: xs) := by
  intro xs
  induction xs with
  | nil => intro acc h; simp [commaJoin]
  | cons x xs ih =>
      intro acc h
      simp only [List.foldl, if_neg h]
      rw [ih (acc ++ "," ++ x) (append_comma_ne_empty acc x)]
      cases xs with
      | nil => simp [commaJoin]
      | cons y ys =>
          show commaJoin ((acc ++ "," ++ x) :: y :: ys) = commaJoin (acc :: x :: y :: ys)
          have h1 : commaJoin ((acc ++ "," ++ x) :: y :: ys) =
              (acc ++ "," ++ x) ++ "," ++ commaJoin (y :: ys) := rfl
          have h2 : commaJoin (acc :: x :: y :: ys) =
              acc ++ "," ++ commaJoin (x :: y :: ys) := rfl
          have h3 : commaJoin (x :: y :: ys) = x ++ "," ++ commaJoin (y :: ys) := rfl
          rw [h1, h2, h3]
          simp [String.append_assoc]

lemma foldl_join (x : String) (xs : List String) (hx : x ≠ "") :
    (x :: xs).foldl (fun acc gs => if acc = "" then gs else acc ++ "," ++ gs) "" =
      commaJoin (x :: xs) := by
  simp only [List.foldl, if_pos rfl]
  exact foldl_join_aux xs x hx

lemma groupby_consRuns : ∀ (sfxs : List ℤ) (n : ℕ) (a : ℤ) (cur : List (ℕ × ℤ)),
    (groupbyAux (fun x => (x.1 : ℤ) - x.2) ((n : ℤ) - a) ((n, a) :: cur)
        (enumFrom (n + 1) sfxs)).map (List.map Prod.snd) =
      consRunsAux a (a :: cur.map Prod.snd) sfxs := by
  intro sfxs
  induction sfxs with
  | nil =>
      intro n a cur
      simp [groupbyAux, consRunsAux, enumFrom]
  | cons b rest ih =>
      intro n a cur
      simp only [enumFrom, groupbyAux, consRunsAux]
      by_cases hb : b = a + 1
      · have hkey : ((n + 1 : ℕ) : ℤ) - b = (n : ℤ) - a := by
          subst hb; push_cast; ring
        rw [if_pos hkey, if_pos hb]
        have := ih (n + 1) b ((n, a) :: cur)
        rw [hkey] at this
        rw [this]
        simp
      · have hkey : ¬ (((n + 1 : ℕ) : ℤ) - b = (n : ℤ) - a) := by
          intro hcon
          apply hb
          push_cast at hcon
          omega
        rw [if_neg hkey, if_neg hb]
        have := ih (n + 1) b []
        simp only [List.map_nil] at this
        rw [List.map_cons, this]
        simp [List.map_reverse]

lemma parseIdentPair_rows (s : String) (x y : ℤ) (h : parseIdentPair s = some (x, y)) :
    (pySplitSlash s).mapM pyIntExc = .ok [x, y] := by
  unfold parseIdentPair at h
  rcases hsp : pySplitSlash s with _ | ⟨a, _ | ⟨b, _ | ⟨c, t⟩⟩⟩
  · rw [hsp] at h; exact absurd h (by simp)
  · rw [hsp] at h; exact absurd h (by simp)
  · rw [hsp] at h
    dsimp only at h
    cases ha : pyIntStr a with
    | none => rw [ha] at h; exact absurd h (by simp)
    | some xa =>
        rw [ha] at h
        cases hb : pyIntStr b with
        | none => rw [hb] at h; exact absurd h (by simp)
        | some yb =>
            rw [hb] at h
            simp only [Option.some.injEq, Prod.mk.injEq] at h
            obtain ⟨rfl, rfl⟩ := h
            rw [List.mapM_cons, List.mapM_cons, List.mapM_nil]
            unfold pyIntExc
            rw [ha, hb]
            rfl
  · rw [hsp] at h; exact absurd h (by simp)

lemma mapM_rows : ∀ (idents : List String) (prs : List (ℤ × ℤ)),
    parseIdents idents = some prs →
    idents.mapM (fun ident => (pySplitSlash ident).mapM pyIntExc) =
      .ok (prs.map fun pr => [pr.1, pr.2]) ∧ prs.length = idents.length := by
  intro idents
  induction idents with
  | nil =>
      intro prs h
      have h2 : parseIdents ([] : List String) = some [] := rfl
      rw [h2] at h
      have : prs = [] := (Option.some.inj h).symm
      subst this
      exact ⟨rfl, rfl⟩
  | cons s rest ih =>
      intro prs h
      unfold parseIdents at h
      rw [List.mapM_cons] at h
      cases hp : parseIdentPair s with
      | none => rw [hp] at h; exact absurd h (by simp)
      | some p =>
          rw [hp] at h
          cases hps : rest.mapM parseIdentPair with
          | none => rw [hps] at h; exact absurd h (by simp)
          | some ps =>
              rw [hps] at h
              have h3 : (do
                  let a ← some p
                  let b ← some ps
                  pure (a :: b) : Option (List (ℤ × ℤ))) = some (p :: ps) := rfl
              rw [h3] at h
              replace h := Option.some.inj h
              subst h
              obtain ⟨x, y⟩ := p
              obtain ⟨ih1, ih2⟩ := ih ps hps
              rw [List.mapM_cons]
              rw [parseIdentPair_rows s x y hp, okBind, ih1, okBind]
              exact ⟨rfl, by simp [ih2]⟩

lemma consRunsAux_ne_nil : ∀ (l : List ℤ) (prev : ℤ) (cur : List ℤ),
    consRunsAux prev cur l ≠ [] := by
  intro l
  induction l with
  | nil => intro prev cur; simp [consRunsAux]
  | cons x xs ih =>
      intro prev cur
      unfold consRunsAux
      split_ifs
      · exact ih x (x :: cur)
      · simp

lemma runStr_ne_empty (g : List ℤ) : runStr g ≠ "" := by
  unfold runStr
  split_ifs
  · exact intRepr_ne_empty _
  · intro h
    have := congrArg String.length h
    rw [String.length_append, String.length_append] at this
    have h2 : ("-" : String).length = 1 := rfl
    have h3 : ("" : String).length = 0 := rfl
    omega

lemma fold_min_two : ∀ (rows : List (List ℤ)), (∀ r ∈ rows, r.length = 2) →
    rows.foldl (fun m row => min m row.length) 2 = 2 := by
  intro rows
  induction rows with
  | nil => intro _; rfl
  | cons r rs ih =>
      intro h
      have hr : r.length = 2 := h r (by simp)
      simp only [List.foldl, hr, min_self]
      exact ih (fun r2 hr2 => h r2 (by simp [hr2]))

lemma abbreviate_eval (idents : List String) (pr0 : ℤ × ℤ) (prest : List (ℤ × ℤ))
    (h : parseIdents idents = some (pr0 :: prest)) :
    abbreviate_idents idents =
      (if (pr0 :: prest).any (fun pr => pr.1 ≠ pr0.1) then
        .error (.valueError
          "ERROR: Found multiple unique prefixes in idents.  All prefixes must be identical.")
      else .ok (some (specAbbrev pr0.1 ((pr0 :: prest).map Prod.snd)))) := by
  obtain ⟨hrows, hlen⟩ := mapM_rows idents _ h
  have hne : ¬ idents.isEmpty = true := by
    cases idents with
    | nil =>
        exfalso
        have : parseIdents ([] : List String) = some [] := rfl
        rw [this] at h
        exact absurd (Option.some.inj h) (by simp)
    | cons a t => simp
  unfold abbreviate_idents
  rw [if_neg hne, hrows]
  simp only [okBind]
  simp only [List.map_cons]
  simp only [List.headD_cons, List.map_map]
  have hcomp1 : ((fun row : List ℤ => row.headD 0) ∘ fun (pr : ℤ × ℤ) => [pr.1, pr.2]) =
      Prod.fst := by
    funext pr
    simp
  have hcomp2 : ((fun row : List ℤ => row.getD 1 0) ∘ fun (pr : ℤ × ℤ) => [pr.1, pr.2]) =
      Prod.snd := by
    funext pr
    rfl
  rw [hcomp1, hcomp2]
  have hfold : List.foldl (fun m row => m ⊓ row.length)
      ([pr0.1, pr0.2] : List ℤ).length (List.map (fun pr : ℤ × ℤ => [pr.1, pr.2]) prest) = 2 := by
    have h2 : (∀ r ∈ List.map (fun pr : ℤ × ℤ => [pr.1, pr.2]) prest, r.length = 2) := by
      intro r hr
      obtain ⟨pr, -, rfl⟩ := List.mem_map.mp hr
      rfl
    exact fold_min_two _ h2
  rw [hfold, if_neg (by simp)]
  have hanyl : ∀ (l : List (ℤ × ℤ)),
      ((List.map Prod.fst l).any fun p => decide (p ≠ pr0.1)) =
        (l.any fun pr => decide (pr.1 ≠ pr0.1)) := by
    intro l
    induction l with
    | nil => rfl
    | cons x xs ihx => simp only [List.map_cons, List.any_cons, ihx]
  have hany : ((pr0.1 :: List.map Prod.fst prest).any fun p => decide (p ≠ pr0.1)) =
      ((pr0 :: prest).any fun pr => decide (pr.1 ≠ pr0.1)) := by
    simp only [List.any_cons, hanyl]
  have hgetd : (([pr0.1, pr0.2] : List ℤ).getD 1 0) = pr0.2 := rfl
  rw [hgetd, hany]
  by_cases hca : ((pr0 :: prest).any fun pr => decide (pr.1 ≠ pr0.1)) = true
  · rw [if_pos hca, if_pos hca]
  · rw [if_neg hca, if_neg hca]
    rw [pureExcept]
    congr 1
    congr 1
    congr 1
    simp only [enumFrom, groupbyKey]
    have hlam : (fun g : List (ℕ × ℤ) =>
        if (List.map Prod.snd g).headD 0 = (List.map Prod.snd g).getLastD 0 then
          toString ((List.map Prod.snd g).headD 0)
        else toString ((List.map Prod.snd g).headD 0) ++ "-" ++
          toString ((List.map Prod.snd g).getLastD 0)) =
        (fun g : List (ℕ × ℤ) => runStr (g.map Prod.snd)) := rfl
    rw [hlam]
    have hmm : List.map (fun g : List (ℕ × ℤ) => runStr (g.map Prod.snd))
        (groupbyAux (fun x : ℕ × ℤ => (x.1 : ℤ) - x.2) (((0 : ℕ) : ℤ) - pr0.2)
          [(0, pr0.2)] (enumFrom (0 + 1) (List.map Prod.snd prest))) =
        List.map runStr (consRunsAux pr0.2 [pr0.2] (List.map Prod.snd prest)) := by
      have hb := groupby_consRuns (List.map Prod.snd prest) 0 pr0.2 []
      simp only [List.map_nil] at hb
      rw [show (fun g : List (ℕ × ℤ) => runStr (List.map Prod.snd g)) =
        runStr ∘ (List.map Prod.snd) from rfl, ← List.map_map, hb]
    rw [hmm]
    show List.foldl (fun acc gs => if acc = "" then gs else acc ++ "," ++ gs) ""
      (List.map runStr (consRuns (pr0.2 :: List.map Prod.snd prest))) =
      commaJoin (List.map runStr (consRuns (pr0.2 :: List.map Prod.snd prest)))
    cases hcr : consRuns (pr0.2 :: List.map Prod.snd prest) with
    | nil =>
        exfalso
        exact consRunsAux_ne_nil (List.map Prod.snd prest) pr0.2 [pr0.2] hcr
    | cons r1 rs =>
        rw [List.map_cons]
        exact foldl_join (runStr r1) (List.map runStr rs) (runStr_ne_empty r1)

/-- C7: abbreviate_idents on idents of the numeric slash form: with a
single shared numeric part before the slash it compresses the runs of
consecutive suffixes into range strings joined by commas, and with more
than one distinct leading part it raises ValueError; including the
documented examples. -/
theorem claim_C7_abbreviate :
    (∀ (idents : List String) (prs : List (ℤ × ℤ)), idents ≠ [] →
      parseIdents idents = some prs →
      ((∀ pr ∈ prs, pr.1 = (prs.headD (0, 0)).1) →
        abbreviate_idents idents =
          .ok (some (specAbbrev (prs.headD (0, 0)).1 (prs.map Prod.snd)))) ∧
      ((∃ pr ∈ prs, pr.1 ≠ (prs.headD (0, 0)).1) →
        ∃ msg, abbreviate_idents idents = .error (.valueError msg))) ∧
    abbreviate_idents ["10/133", "10/134", "10/135"] = .ok (some "10/133-135") ∧
    abbreviate_idents ["10/133", "10/135"] = .ok (some "10/133,135") ∧
    (∃ msg, abbreviate_idents ["10/1", "11/2"] = .error (.valueError msg)) := by
  refine ⟨?_, by decide, by decide,
    ⟨"ERROR: Found multiple unique prefixes in idents.  All prefixes must be identical.",
      by decide⟩⟩
  intro idents prs hne hp
  cases prs with
  | nil =>
      exfalso
      have hlen := (mapM_rows idents [] hp).2
      cases idents with
      | nil => exact hne rfl
      | cons a t => simp at hlen
  | cons pr0 prest =>
      have heval := abbreviate_eval idents pr0 prest hp
      constructor
      · intro hall
        rw [heval, if_neg ?_]
        · rfl
        · simp only [List.any_eq_true, decide_eq_true_eq, not_exists]
          intro pr
          simp only [not_and, Decidable.not_not]
          intro hpr
          exact hall pr hpr
      · intro hex
        rw [heval, if_pos ?_]
        · exact ⟨_, rfl⟩
        · simp only [List.any_eq_true, decide_eq_true_eq]
          obtain ⟨pr, hmem, hdiff⟩ := hex
          exact ⟨pr, hmem, hdiff⟩

/-- C7 witness: the abbreviation statement applied to the two-ident
example with a gap. -/
theorem claim_C7_abbreviate_witness :
    abbreviate_idents ["10/133", "10/135"] = .ok (some (specAbbrev 10 [133, 135])) :=
  (claim_C7_abbreviate.1 ["10/133", "10/135"] [(10, 133), (10, 135)] (by decide)
    (by decide)).1 (by decide)

lemma walkDaysFuel_mem : ∀ (fuel d stop : ℕ), stop ≤ d * 1440 + fuel * 1440 →
    ∀ e, e ∈ walkDaysFuel fuel d stop ↔ (d ≤ e ∧ e * 1440 < stop) := by
  intro fuel
  induction fuel with
  | zero =>
      intro d stop h e
      simp only [walkDaysFuel, List.not_mem_nil, false_iff]
      rintro ⟨h1, h2⟩
      omega
  | succ f ih =>
      intro d stop h e
      show e ∈ (if d * 1440 < stop then d :: walkDaysFuel f (d + 1) stop else []) ↔ _
      by_cases hd : d * 1440 < stop
      · rw [if_pos hd]
        simp only [List.mem_cons]
        rw [ih (d + 1) stop (by omega) e]
        constructor
        · rintro (rfl | ⟨h1, h2⟩)
          · exact ⟨le_refl e, hd⟩
          · exact ⟨by omega, h2⟩
        · rintro ⟨h1, h2⟩
          by_cases he : e = d
          · exact Or.inl he
          · exact Or.inr ⟨by omega, h2⟩
      · rw [if_neg hd]
        simp only [List.not_mem_nil, false_iff]
        rintro ⟨h1, h2⟩
        omega

lemma walkDaysFuel_head : ∀ (fuel d stop : ℕ),
    walkDaysFuel fuel d stop = [] ∨ ∃ t, walkDaysFuel fuel d stop = d :: t := by
  intro fuel d stop
  cases fuel with
  | zero => exact Or.inl rfl
  | succ f =>
      by_cases hd : d * 1440 < stop
      · refine Or.inr ⟨walkDaysFuel f (d + 1) stop, ?_⟩
        show (if d * 1440 < stop then d :: walkDaysFuel f (d + 1) stop else []) = _
        rw [if_pos hd]
      · refine Or.inl ?_
        show (if d * 1440 < stop then d :: walkDaysFuel f (d + 1) stop else []) = []
        rw [if_neg hd]

lemma walkDaysFuel_chain : ∀ (fuel d stop : ℕ),
    List.Chain' (· < ·) (walkDaysFuel fuel d stop) := by
  intro fuel
  induction fuel with
  | zero => intro d stop; exact List.chain'_nil
  | succ f ih =>
      intro d stop
      show List.Chain' (· < ·) (if d * 1440 < stop then d :: walkDaysFuel f (d + 1) stop else [])
      by_cases hd : d * 1440 < stop
      · rw [if_pos hd]
        rcases walkDaysFuel_head f (d + 1) stop with hnil | ⟨t, ht⟩
        · rw [hnil]
          simp
        · rw [ht]
          exact List.Chain'.cons (by omega) (ht ▸ ih (d + 1) stop)
      · rw [if_neg hd]
        exact List.chain'_nil

/-- C8, counterexample: on the degenerate (empty) timespan whose start and
stop instants coincide, the walk still emits the start day although the
half-open span overlaps no day by even one minute, so the output is not
the list of overlapped days for every well-formed timespan string. -/
theorem claim_C8_degenerate_span :
    days_from_timespan "1810291000-1810291000" = .ok ["2018-10-29"] ∧
    ¬ dayOverlaps (daysFromCivil 2018 10 29 * 1440 + 600)
      (daysFromCivil 2018 10 29 * 1440 + 600) (daysFromCivil 2018 10 29) ∧
    isoOfDay (daysFromCivil 2018 10 29) = "2018-10-29" :=
  ⟨by decide, by unfold dayOverlaps; omega, by decide⟩

/-- C8 as amended: for every well-formed timespan whose start instant is
strictly before its stop instant, days_from_timespan returns exactly the
strictly increasing list of ISO formatted UTC days the half-open span
overlaps by at least one minute; including the two documented examples. -/
theorem claim_C8_days_spec :
    (∀ (ts : String) (a b : List Char) (S T : ℕ),
      matchTimespan ts = some (a, b) → strptimeYYMMDDHHMM a = some S →
      strptimeYYMMDDHHMM b = some T → S < T →
      ∃ ds : List ℕ, days_from_timespan ts = .ok (ds.map isoOfDay) ∧
        List.Chain' (· < ·) ds ∧ (∀ z, z ∈ ds ↔ dayOverlaps S T z)) ∧
    days_from_timespan "1810291000-1810291300" = .ok ["2018-10-29"] ∧
    days_from_timespan "1810261630-1810282359" =
      .ok ["2018-10-26", "2018-10-27", "2018-10-28"] := by
  refine ⟨?_, by decide, by decide⟩
  intro ts a b S T hm hS hT hlt
  refine ⟨walkDays (S / 1440) T, ?_, ?_, ?_⟩
  · unfold days_from_timespan
    rw [hm]
    dsimp only
    rw [hS, hT]
  · exact walkDaysFuel_chain T (S / 1440) T
  · intro z
    unfold walkDays
    rw [walkDaysFuel_mem T (S / 1440) T (by omega) z]
    unfold dayOverlaps
    rw [max_lt_iff, lt_min_iff, lt_min_iff]
    omega

/-- C8 witness: the amended statement applied to the single-day example
timespan. -/
theorem claim_C8_days_spec_witness :
    ∃ ds : List ℕ, days_from_timespan "1810291000-1810291300" = .ok (ds.map isoOfDay) ∧
      List.Chain' (· < ·) ds ∧
      (∀ z, z ∈ ds ↔ dayOverlaps (daysFromCivil 2018 10 29 * 1440 + 600)
        (daysFromCivil 2018 10 29 * 1440 + 780) z) :=
  claim_C8_days_spec.1 "1810291000-1810291300"
    ['1', '8', '1', '0', '2', '9', '1', '0', '0', '0']
    ['1', '8', '1', '0', '2', '9', '1', '3', '0', '0']
    (daysFromCivil 2018 10 29 * 1440 + 600) (daysFromCivil 2018 10 29 * 1440 + 780)
    (by decide) (by decide) (by decide) (by decide)

lemma atan2_zero_nonneg (x : ℝ) (hx : 0 ≤ x) : atan2 0 x = 0 := by
  unfold atan2
  rcases lt_or_eq_of_le hx with hpos | hzero
  · rw [if_pos hpos]
    simp [Real.arctan_zero]
  · rw [if_neg (by rw [← hzero]; exact lt_irrefl 0), if_neg (by rw [← hzero]; exact lt_irrefl 0)]
    simp

lemma cos_atan2 (y x : ℝ) (h : ¬ (x = 0 ∧ y = 0)) :
    Real.cos (atan2 y x) = x / Real.sqrt (x ^ 2 + y ^ 2) := by
  have hsum : 0 < x ^ 2 + y ^ 2 := by
    rcases not_and_or.mp h with hx | hy
    · positivity
    · positivity
  unfold atan2
  rcases lt_trichotomy x 0 with hneg | hzero | hpos
  · have hxne : x ≠ 0 := ne_of_lt hneg
    have hx2 : (1 + (y / x) ^ 2) = (x ^ 2 + y ^ 2) / x ^ 2 := by
      field_simp
    have hsq : Real.sqrt (1 + (y / x) ^ 2) = Real.sqrt (x ^ 2 + y ^ 2) / (-x) := by
      rw [hx2, Real.sqrt_div (by positivity)]
      congr 1
      rw [show x ^ 2 = (-x) ^ 2 by ring]
      exact Real.sqrt_sq (by linarith)
    have hcos : Real.cos (Real.arctan (y / x)) = (-x) / Real.sqrt (x ^ 2 + y ^ 2) := by
      rw [Real.cos_arctan, hsq, one_div, inv_div]
    rw [if_neg (by linarith), if_pos hneg]
    rcases le_or_lt 0 y with hy | hy
    · rw [if_pos hy]
      rw [Real.cos_add, Real.cos_pi, Real.sin_pi, hcos]
      ring
    · rw [if_neg (not_le.mpr hy)]
      rw [Real.cos_sub, Real.cos_pi, Real.sin_pi, hcos]
      ring
  · rw [if_neg (by rw [hzero]; exact lt_irrefl 0), if_neg (by rw [hzero]; exact lt_irrefl 0)]
    have hyne : y ≠ 0 := by
      intro hy
      exact h ⟨hzero, hy⟩
    rcases lt_trichotomy y 0 with hyneg | hy0 | hypos
    · rw [if_neg (by linarith), if_pos hyneg]
      rw [Real.cos_neg, Real.cos_pi_div_two, hzero]
      simp
    · exact absurd hy0 hyne
    · rw [if_pos hypos]
      rw [Real.cos_pi_div_two, hzero]
      simp
  · have hxne : x ≠ 0 := ne_of_gt hpos
    have hx2 : (1 + (y / x) ^ 2) = (x ^ 2 + y ^ 2) / x ^ 2 := by
      field_simp
    have hsq : Real.sqrt (1 + (y / x) ^ 2) = Real.sqrt (x ^ 2 + y ^ 2) / x := by
      rw [hx2, Real.sqrt_div (by positivity)]
      congr 1
      exact Real.sqrt_sq (le_of_lt hpos)
    rw [if_pos hpos, Real.cos_arctan, hsq, one_div, inv_div]

lemma dest_identity (φ1 δ θ : ℝ) (hlo : -(Real.pi/2) ≤ φ1) (hhi : φ1 ≤ Real.pi/2) :
    Real.sin φ1 * Real.sin (Real.arcsin (Real.sin φ1 * Real.cos δ + Real.cos φ1 * Real.sin δ * Real.cos θ)) +
    Real.cos φ1 * Real.cos (Real.arcsin (Real.sin φ1 * Real.cos δ + Real.cos φ1 * Real.sin δ * Real.cos θ)) *
      Real.cos (atan2 (Real.sin θ * Real.sin δ * Real.cos φ1)
        (Real.cos δ - Real.sin φ1 *
          Real.sin (Real.arcsin (Real.sin φ1 * Real.cos δ + Real.cos φ1 * Real.sin δ * Real.cos θ)))) =
    Real.cos δ := by
  have hP1 := Real.sin_sq_add_cos_sq φ1
  have hPd := Real.sin_sq_add_cos_sq δ
  have hPt := Real.sin_sq_add_cos_sq θ
  set s := Real.sin φ1 * Real.cos δ + Real.cos φ1 * Real.sin δ * Real.cos θ with hs
  have hkey : 1 - s ^ 2 =
      (Real.sin δ * Real.sin θ) ^ 2 +
      (Real.cos δ * Real.cos φ1 - Real.sin φ1 * Real.sin δ * Real.cos θ) ^ 2 := by
    rw [hs]
    linear_combination (-(Real.cos δ ^ 2 + Real.sin δ ^ 2 * Real.cos θ ^ 2)) * hP1 +
      (-1 : ℝ) * hPd + (-(Real.sin δ ^ 2)) * hPt
  have hsq : s ^ 2 ≤ 1 := by
    nlinarith [sq_nonneg (Real.sin δ * Real.sin θ),
      sq_nonneg (Real.cos δ * Real.cos φ1 - Real.sin φ1 * Real.sin δ * Real.cos θ)]
  have hs_le : s ≤ 1 := by nlinarith [hsq]
  have hs_ge : -1 ≤ s := by nlinarith [hsq]
  rw [Real.sin_arcsin hs_ge hs_le, Real.cos_arcsin]
  have hc1 : 0 ≤ Real.cos φ1 := Real.cos_nonneg_of_mem_Icc ⟨by linarith, hhi⟩
  have hB : Real.cos δ - Real.sin φ1 * s =
      Real.cos φ1 * (Real.cos δ * Real.cos φ1 - Real.sin φ1 * Real.sin δ * Real.cos θ) := by
    rw [hs]
    linear_combination (-(Real.cos δ)) * hP1
  rcases eq_or_lt_of_le hc1 with hc0 | hcpos
  · have hs1 : Real.sin φ1 ^ 2 = 1 := by nlinarith [hP1]
    rw [hs, ← hc0]
    linear_combination Real.cos δ * hs1
  · rcases eq_or_lt_of_le (by positivity :
        (0:ℝ) ≤ (Real.sin δ * Real.sin θ) ^ 2 +
          (Real.cos δ * Real.cos φ1 - Real.sin φ1 * Real.sin δ * Real.cos θ) ^ 2) with hz | hz
    · -- degenerate: both components vanish, cos(arcsin s) = 0
      have ha2 : (Real.sin δ * Real.sin θ) ^ 2 ≤ 0 := by
        linarith [sq_nonneg (Real.cos δ * Real.cos φ1 - Real.sin φ1 * Real.sin δ * Real.cos θ)]
      have hb2 : (Real.cos δ * Real.cos φ1 - Real.sin φ1 * Real.sin δ * Real.cos θ) ^ 2 ≤ 0 := by
        linarith [sq_nonneg (Real.sin δ * Real.sin θ)]
      have hAp : Real.sin δ * Real.sin θ = 0 :=
        (pow_eq_zero_iff (by norm_num)).mp (le_antisymm ha2 (sq_nonneg _))
      have hBp : Real.cos δ * Real.cos φ1 - Real.sin φ1 * Real.sin δ * Real.cos θ = 0 :=
        (pow_eq_zero_iff (by norm_num)).mp (le_antisymm hb2 (sq_nonneg _))
      have hsz : Real.sqrt (1 - s ^ 2) = 0 := by
        rw [hkey, ← hz]
        exact Real.sqrt_zero
      rw [hsz]
      rw [hs]
      linear_combination Real.cos δ * hP1 + (-(Real.cos φ1)) * hBp
    · -- generic: cos_atan2 applies
      have hBne : ¬ (Real.cos δ - Real.sin φ1 * s = 0 ∧ Real.sin θ * Real.sin δ * Real.cos φ1 = 0) := by
        rintro ⟨hb, ha⟩
        have hBp : Real.cos δ * Real.cos φ1 - Real.sin φ1 * Real.sin δ * Real.cos θ = 0 := by
          rw [hB] at hb
          rcases mul_eq_zero.mp hb with h0 | h0
          · exact absurd h0 (ne_of_gt hcpos)
          · exact h0
        have hAp : Real.sin δ * Real.sin θ = 0 := by
          rcases mul_eq_zero.mp ha with h0 | h0
          · rw [mul_comm]
            exact h0
          · exact absurd h0 (ne_of_gt hcpos)
        rw [hAp, hBp] at hz
        simp at hz
      rw [cos_atan2 _ _ hBne]
      have hBexp : (Real.cos δ - Real.sin φ1 * s) ^ 2 +
          (Real.sin θ * Real.sin δ * Real.cos φ1) ^ 2 =
          Real.cos φ1 ^ 2 * ((Real.sin δ * Real.sin θ) ^ 2 +
            (Real.cos δ * Real.cos φ1 - Real.sin φ1 * Real.sin δ * Real.cos θ) ^ 2) := by
        rw [hB]
        ring
      have hsqrtB : Real.sqrt ((Real.cos δ - Real.sin φ1 * s) ^ 2 +
          (Real.sin θ * Real.sin δ * Real.cos φ1) ^ 2) =
          Real.cos φ1 * Real.sqrt ((Real.sin δ * Real.sin θ) ^ 2 +
            (Real.cos δ * Real.cos φ1 - Real.sin φ1 * Real.sin δ * Real.cos θ) ^ 2) := by
        rw [hBexp, Real.sqrt_mul (by positivity), Real.sqrt_sq hc1]
      have hsqrt1s : Real.sqrt (1 - s ^ 2) =
          Real.sqrt ((Real.sin δ * Real.sin θ) ^ 2 +
            (Real.cos δ * Real.cos φ1 - Real.sin φ1 * Real.sin δ * Real.cos θ) ^ 2) := by
        rw [hkey]
      have hrpos : 0 < Real.sqrt ((Real.sin δ * Real.sin θ) ^ 2 +
          (Real.cos δ * Real.cos φ1 - Real.sin φ1 * Real.sin δ * Real.cos θ) ^ 2) :=
        Real.sqrt_pos.mpr hz
      rw [hsqrt1s, hsqrtB, hB]
      rw [show Real.cos φ1 * Real.sqrt ((Real.sin δ * Real.sin θ) ^ 2 +
          (Real.cos δ * Real.cos φ1 - Real.sin φ1 * Real.sin δ * Real.cos θ) ^ 2) *
          (Real.cos φ1 * (Real.cos δ * Real.cos φ1 - Real.sin φ1 * Real.sin δ * Real.cos θ) /
            (Real.cos φ1 * Real.sqrt ((Real.sin δ * Real.sin θ) ^ 2 +
              (Real.cos δ * Real.cos φ1 - Real.sin φ1 * Real.sin δ * Real.cos θ) ^ 2))) =
          Real.cos φ1 * (Real.cos δ * Real.cos φ1 - Real.sin φ1 * Real.sin δ * Real.cos θ) by
        field_simp]
      rw [hs]
      linear_combination Real.cos δ * hP1

lemma R_NM_pos : (0:ℝ) < R_NM := by norm_num [R_NM]

lemma get_location_gc_distance (lat lon b r : ℝ)
    (h1 : -90 ≤ lat) (h2 : lat ≤ 90) (hr0 : 0 ≤ r) (hrpi : r ≤ Real.pi * R_NM) :
    gc_distance lat lon (get_location lat lon b r).1 (get_location lat lon b r).2 = r := by
  have hR : (0:ℝ) < R_NM := R_NM_pos
  have hpi := Real.pi_pos
  have hpne : Real.pi ≠ 0 := ne_of_gt hpi
  have hconv : ∀ x : ℝ, 180 * x / Real.pi * Real.pi / 180 = x := by
    intro x
    field_simp
  have hlonconv : ∀ z : ℝ, (180 * (lon * Real.pi / 180 + z) / Real.pi - lon) * Real.pi / 180 = z := by
    intro z
    field_simp
    ring
  have hφlo : -(Real.pi/2) ≤ lat * Real.pi / 180 := by nlinarith
  have hφhi : lat * Real.pi / 180 ≤ Real.pi/2 := by nlinarith
  have hδpi : r / R_NM ≤ Real.pi := by
    rw [div_le_iff₀ hR]
    linarith [hrpi]
  unfold get_location gc_distance
  dsimp only
  rw [hconv, hlonconv]
  rw [dest_identity (lat * Real.pi / 180) (r / R_NM) (b / 90 * Real.pi / 2) hφlo hφhi]
  rw [Real.arccos_cos (by positivity) hδpi]
  field_simp

lemma get_location_zero (lat lon b : ℝ) (h1 : -90 ≤ lat) (h2 : lat ≤ 90) :
    get_location lat lon b 0 = (lat, lon) := by
  have hR : (0:ℝ) < R_NM := R_NM_pos
  have hpi := Real.pi_pos
  have hpne : Real.pi ≠ 0 := ne_of_gt hpi
  have hφlo : -(Real.pi/2) ≤ lat * Real.pi / 180 := by nlinarith
  have hφhi : lat * Real.pi / 180 ≤ Real.pi/2 := by nlinarith
  unfold get_location
  dsimp only
  rw [zero_div, Real.cos_zero, Real.sin_zero]
  rw [show Real.sin (lat * Real.pi / 180) * 1 + Real.cos (lat * Real.pi / 180) * 0 *
      Real.cos (b / 90 * Real.pi / 2) = Real.sin (lat * Real.pi / 180) by ring]
  rw [Real.arcsin_sin hφlo hφhi]
  rw [show Real.sin (b / 90 * Real.pi / 2) * 0 * Real.cos (lat * Real.pi / 180) = 0 by ring]
  have hBnn : 0 ≤ 1 - Real.sin (lat * Real.pi / 180) * Real.sin (lat * Real.pi / 180) := by
    nlinarith [Real.sin_sq_add_cos_sq (lat * Real.pi / 180), sq_nonneg (Real.cos (lat * Real.pi / 180))]
  rw [atan2_zero_nonneg _ hBnn, Prod.mk.injEq]
  refine ⟨?_, ?_⟩
  · field_simp
  · rw [add_zero]
    field_simp

lemma get_location_full_turn :
    get_location 0 0 0 (2 * Real.pi * R_NM) = (0, 0) := by
  have hR : (0:ℝ) < R_NM := R_NM_pos
  have hRne : R_NM ≠ 0 := ne_of_gt hR
  unfold get_location
  dsimp only
  rw [mul_div_cancel_right₀ _ hRne]
  rw [show (0:ℝ) * Real.pi / 180 = 0 by ring, show (0:ℝ) / 90 * Real.pi / 2 = 0 by ring]
  rw [Real.sin_zero, Real.cos_zero, Real.sin_two_pi, Real.cos_two_pi]
  rw [show (0:ℝ) * 1 + 1 * 0 * 1 = 0 by ring, Real.arcsin_zero]
  rw [show (0:ℝ) * 0 * 1 = 0 by ring, Real.sin_zero]
  rw [show (1:ℝ) - 0 * 0 = 1 by ring]
  rw [atan2_zero_nonneg 1 (by norm_num)]
  rw [Prod.mk.injEq]
  refine ⟨by rw [mul_zero]; exact zero_div _, by rw [add_zero, mul_zero]; exact zero_div _⟩

lemma gc_distance_self_zero : gc_distance 0 0 0 0 = 0 := by
  unfold gc_distance
  rw [show (0:ℝ) * Real.pi / 180 = 0 by ring]
  rw [Real.sin_zero, Real.cos_zero]
  rw [show (0:ℝ) - 0 = 0 by ring, show (0:ℝ) * Real.pi / 180 = 0 by ring]
  rw [Real.cos_zero]
  rw [show (0:ℝ) * 0 + 1 * 1 * 1 = 1 by ring, Real.arccos_one, mul_zero]

lemma compute_circle_get (lat lon r : ℝ) (i : ℕ) (hi : i < 360) :
    (compute_circle lat lon r).1[i]? = some (get_location lat lon i r).1 ∧
    (compute_circle lat lon r).2[i]? = some (get_location lat lon i r).2 := by
  unfold compute_circle
  dsimp only
  rw [List.getElem?_map, List.getElem?_map, List.getElem?_range hi]
  exact ⟨rfl, rfl⟩

lemma compute_circle_length (lat lon r : ℝ) :
    (compute_circle lat lon r).1.length = 360 ∧ (compute_circle lat lon r).2.length = 360 := by
  unfold compute_circle
  dsimp only
  rw [List.length_map, List.length_map, List.length_range]
  exact ⟨rfl, rfl⟩

/-- C5, counterexample: the claim quantifies over every finite radius, but at
center (0, 0) with radius 2 * pi * R_NM (a full turn around the sphere) the
point at bearing 0 is the center itself, whose great-circle distance from the
center is 0, not the strictly positive input radius. -/
theorem claim_C5_radius_counterexample :
    (compute_circle 0 0 (2 * Real.pi * R_NM)).1[0]? = some (0:ℝ) ∧
    (compute_circle 0 0 (2 * Real.pi * R_NM)).2[0]? = some (0:ℝ) ∧
    gc_distance 0 0 0 0 = 0 ∧
    0 < 2 * Real.pi * R_NM := by
  obtain ⟨ha, hb⟩ := compute_circle_get 0 0 (2 * Real.pi * R_NM) 0 (by norm_num)
  rw [Nat.cast_zero, get_location_full_turn] at ha hb
  refine ⟨ha, hb, gc_distance_self_zero, ?_⟩
  have h1 := Real.pi_pos
  have h2 := R_NM_pos
  positivity

/-- C5, amended: with the center latitude restricted to the interval from -90
to 90 degrees and the radius to the interval from 0 to pi * R_NM nautical
miles (half the circumference of the spherical earth model), compute_circle
returns exactly 360 latitudes and 360 longitudes, the point at index i is
get_location at integer bearing i, every point lies at great-circle distance
exactly the input radius from the center under the spherical model with
R_NM = 3440.07, and for radius 0 every point equals the center.  Reals model
the floating-point arithmetic exactly (no rounding). -/
theorem claim_C5_circle_spec (lat lon r : ℝ)
    (h1 : -90 ≤ lat) (h2 : lat ≤ 90) (hr0 : 0 ≤ r) (hrpi : r ≤ Real.pi * R_NM) :
    (compute_circle lat lon r).1.length = 360 ∧
    (compute_circle lat lon r).2.length = 360 ∧
    (∀ i : ℕ, i < 360 →
      (compute_circle lat lon r).1[i]? = some (get_location lat lon i r).1 ∧
      (compute_circle lat lon r).2[i]? = some (get_location lat lon i r).2 ∧
      gc_distance lat lon (get_location lat lon i r).1 (get_location lat lon i r).2 = r) ∧
    (r = 0 → ∀ i : ℕ, i < 360 →
      (compute_circle lat lon r).1[i]? = some lat ∧
      (compute_circle lat lon r).2[i]? = some lon) := by
  obtain ⟨hl1, hl2⟩ := compute_circle_length lat lon r
  refine ⟨hl1, hl2, ?_, ?_⟩
  · intro i hi
    obtain ⟨ha, hb⟩ := compute_circle_get lat lon r i hi
    exact ⟨ha, hb, get_location_gc_distance lat lon i r h1 h2 hr0 hrpi⟩
  · rintro rfl i hi
    obtain ⟨ha, hb⟩ := compute_circle_get lat lon 0 i hi
    rw [get_location_zero lat lon (i : ℝ) h1 h2] at ha hb
    exact ⟨ha, hb⟩

/-- C5 witness: the amended theorem applied at center (0, 0) and radius 0. -/
theorem claim_C5_circle_spec_witness :
    (compute_circle 0 0 0).1.length = 360 ∧ (compute_circle 0 0 0).1[0]? = some (0:ℝ) := by
  obtain ⟨hlen, _, _, hzero⟩ := claim_C5_circle_spec 0 0 0 (by norm_num) (by norm_num)
    (le_refl 0) (mul_nonneg (le_of_lt Real.pi_pos) (le_of_lt R_NM_pos))
  exact ⟨hlen, (hzero rfl 0 (by norm_num)).1⟩
